import Mathlib

/-!
Verification of the antigravity-coordinator core against its specification.

Each Python module relevant to the verified properties is shallowly embedded:
pure functions become Lean functions, SQLite-backed state becomes explicit
state passing over lists of rows, wall-clock times become `Nat`/`ℚ`
parameters, and Python `float` arithmetic is modelled with exact rationals.
-/

set_option maxRecDepth 4000

namespace Coordinator

/-! ## Agent registry (`src/coordinator/engine/registry.py`)

The registry is a SQLite table `agent_registry` keyed by `agent_id`; every
lifecycle operation is a single SQL `UPDATE ... WHERE agent_id = ?` with no
guard on the current state.  We embed the table as a list of rows and each
operation as a map over the rows touching exactly the matching ones.
`datetime.now().isoformat()` timestamps are modelled as `Nat` parameters. -/

inductive AgentState where
  | pending
  | running
  | completed
  | failed
  | timeout
  | cancelled
deriving DecidableEq, Repr

structure AgentRecord where
  agent_id : String
  task_id : String
  subtask : String
  agent_type : String
  model : String
  state : AgentState
  created_at : Nat
  started_at : Option Nat := none
  completed_at : Option Nat := none
  files_locked : List String := []
  progress : ℚ := 0
  last_heartbeat : Option Nat := none
  result : Option String := none
  error : Option String := none
  dq_score : ℚ := 1/2
  cost_estimate : ℚ := 0
deriving DecidableEq, Repr

/-- `UPDATE agent_registry SET ... WHERE agent_id = ?`: rewrite exactly the
rows whose `agent_id` matches. -/
def updateWhere (aid : String) (f : AgentRecord → AgentRecord)
    (regs : List AgentRecord) : List AgentRecord :=
  regs.map fun r => if r.agent_id = aid then f r else r

/-- `AgentRegistry.register`: insert a fresh row in state `pending`. -/
def registryRegister (now : Nat) (aid task_id subtask agent_type model : String)
    (files : List String) (dq : ℚ) (cost : ℚ)
    (regs : List AgentRecord) : List AgentRecord :=
  regs ++ [{ agent_id := aid, task_id := task_id, subtask := subtask,
             agent_type := agent_type, model := model,
             state := .pending, created_at := now,
             files_locked := files, dq_score := dq, cost_estimate := cost }]

/-- `AgentRegistry.start`: unconditional update to `running`. -/
def registryStart (now : Nat) (aid : String)
    (regs : List AgentRecord) : List AgentRecord :=
  updateWhere aid
    (fun r => { r with state := .running, started_at := some now,
                       last_heartbeat := some now }) regs

/-- `AgentRegistry.heartbeat`: update heartbeat, clamping progress to [0,1]
when given; the state column is untouched. -/
def registryHeartbeat (now : Nat) (progress : Option ℚ) (aid : String)
    (regs : List AgentRecord) : List AgentRecord :=
  match progress with
  | some p =>
      updateWhere aid
        (fun r => { r with last_heartbeat := some now,
                           progress := min 1 (max 0 p) }) regs
  | none =>
      updateWhere aid (fun r => { r with last_heartbeat := some now }) regs

/-- `AgentRegistry.complete`: unconditional update to `completed`,
`progress := 1.0`, storing the serialized result. -/
def registryComplete (now : Nat) (result : Option String) (aid : String)
    (regs : List AgentRecord) : List AgentRecord :=
  updateWhere aid
    (fun r => { r with state := .completed, completed_at := some now,
                       progress := 1, result := result }) regs

/-- `AgentRegistry.fail`: unconditional update to `failed` with an error. -/
def registryFail (now : Nat) (error : String) (aid : String)
    (regs : List AgentRecord) : List AgentRecord :=
  updateWhere aid
    (fun r => { r with state := .failed, completed_at := some now,
                       error := some error }) regs

/-- `AgentRegistry.timeout`: unconditional update to `timeout` with the fixed
error message. -/
def registryTimeout (now : Nat) (aid : String)
    (regs : List AgentRecord) : List AgentRecord :=
  updateWhere aid
    (fun r => { r with state := .timeout, completed_at := some now,
                       error := some "Agent timed out" }) regs

/-- `AgentRegistry.cancel`: unconditional update to `cancelled`. -/
def registryCancel (now : Nat) (aid : String)
    (regs : List AgentRecord) : List AgentRecord :=
  updateWhere aid
    (fun r => { r with state := .cancelled, completed_at := some now }) regs

/-- Read back the state column of the row keyed by `aid`. -/
def registryState (regs : List AgentRecord) (aid : String) : Option AgentState :=
  (regs.find? (fun r => r.agent_id = aid)).map AgentRecord.state

/-! ## Conflict manager (`src/coordinator/engine/conflict.py`)

The lock table `file_locks` is embedded as a list of rows; paths are stored
normalized by an arbitrary canonicalization function `norm` (Python
`str(Path(path).resolve())`).  `datetime`/`time.time()` values are `Nat`
seconds; `_cleanup_expired` deletes rows with `acquired_at` before
`now - LOCK_TIMEOUT`. -/

inductive LockType where
  | read
  | write
deriving DecidableEq, Repr

def lockTypeStr : LockType → String
  | .read => "read"
  | .write => "write"

structure FileLock where
  path : String
  agent_id : String
  lock_type : LockType
  acquired_at : Nat
deriving DecidableEq, Repr

def LOCK_TIMEOUT : Nat := 600

/-- `ConflictManager._cleanup_expired`: `DELETE FROM file_locks WHERE
acquired_at < cutoff` with `cutoff = now - LOCK_TIMEOUT`. -/
def cleanupExpired (now : Nat) (locks : List FileLock) : List FileLock :=
  locks.filter (fun l => ¬ l.acquired_at < now - LOCK_TIMEOUT)

/-- One row of the conflict scan in `ConflictManager.check_conflicts`: own
locks are skipped (Python `if agent_id and row["agent_id"] == agent_id`,
where an empty `agent_id` string is falsy), a requested `write` conflicts
with any remaining lock, and a requested `read` conflicts with a `write`. -/
def rowConflicts (lock_type : LockType) (agent_id : String) (row : FileLock) :
    Bool :=
  if agent_id ≠ "" ∧ row.agent_id = agent_id then false
  else
    match lock_type with
    | .write => true
    | .read => row.lock_type = .write

/-- `ConflictManager.check_conflicts`: after the staleness sweep, report for
each path the first conflicting lock (the Python loop `break`s per path),
as `(path, conflicting_agent_id, reason)`.  Returns the conflicts and the
swept lock table. -/
def checkConflicts (norm : String → String) (now : Nat) (paths : List String)
    (lock_type : LockType) (agent_id : String) (locks : List FileLock) :
    List (String × String × String) × List FileLock :=
  let locks1 := cleanupExpired now locks
  let conflicts := paths.flatMap (fun path =>
    match (locks1.filter (fun l => l.path = norm path)).find?
        (rowConflicts lock_type agent_id) with
    | some row =>
        [(path, row.agent_id,
          match lock_type with
          | .write => "File has existing " ++ lockTypeStr row.lock_type ++ " lock"
          | .read => "File has existing write lock")]
    | none => [])
  (conflicts, locks1)

/-- `ConflictManager.acquire`: check conflicts (which sweeps stale locks),
then on success sweep again, delete the agent's own lock on the path
(upgrade/downgrade by delete-then-insert) and insert the new row. -/
def lockAcquire (norm : String → String) (now : Nat) (path agent_id : String)
    (lock_type : LockType) (locks : List FileLock) : Bool × List FileLock :=
  let checked := checkConflicts norm now [path] lock_type agent_id locks
  if checked.1 ≠ [] then (false, checked.2)
  else
    let locks2 := cleanupExpired now checked.2
    let locks3 := locks2.filter
      (fun l => ¬ (l.path = norm path ∧ l.agent_id = agent_id))
    (true, locks3 ++ [{ path := norm path, agent_id := agent_id,
                        lock_type := lock_type, acquired_at := now }])

/-- `ConflictManager.release`: delete the agent's lock on the path. -/
def lockRelease (norm : String → String) (path agent_id : String)
    (locks : List FileLock) : List FileLock :=
  locks.filter (fun l => ¬ (l.path = norm path ∧ l.agent_id = agent_id))

/-- `ConflictManager.release_agent`: delete all the agent's locks. -/
def lockReleaseAgent (agent_id : String) (locks : List FileLock) :
    List FileLock :=
  locks.filter (fun l => ¬ l.agent_id = agent_id)

/-- The per-path loop of `ConflictManager.acquire_batch`: acquire each file in
turn; on the first failure release all the agent's locks (rollback) and
stop. -/
def lockAcquireBatchGo (norm : String → String) (now : Nat) (agent_id : String)
    (lock_type : LockType) :
    List String → List FileLock → (Bool × List String) × List FileLock
  | [], st => ((true, []), st)
  | p :: ps, st =>
    let step := lockAcquire norm now p agent_id lock_type st
    if step.1 then lockAcquireBatchGo norm now agent_id lock_type ps step.2
    else ((false, [p]), lockReleaseAgent agent_id step.2)

/-- `ConflictManager.acquire_batch`: all-or-nothing batch acquire. -/
def lockAcquireBatch (norm : String → String) (now : Nat)
    (files : List String) (agent_id : String) (lock_type : LockType)
    (locks : List FileLock) : (Bool × List String) × List FileLock :=
  let checked := checkConflicts norm now files lock_type agent_id locks
  if checked.1 ≠ [] then
    ((false, checked.1.map (fun c => c.1)), checked.2)
  else lockAcquireBatchGo norm now agent_id lock_type files checked.2

/-- A client-visible operation on the lock table. -/
inductive LockOp where
  | acquire (now : Nat) (path agent_id : String) (lock_type : LockType)
  | acquireBatch (now : Nat) (files : List String) (agent_id : String)
      (lock_type : LockType)
  | release (path agent_id : String)
  | releaseAgent (agent_id : String)
deriving Repr

def lockStep (norm : String → String) (st : List FileLock) : LockOp →
    List FileLock
  | .acquire now path agent_id lock_type =>
      (lockAcquire norm now path agent_id lock_type st).2
  | .acquireBatch now files agent_id lock_type =>
      (lockAcquireBatch norm now files agent_id lock_type st).2
  | .release path agent_id => lockRelease norm path agent_id st
  | .releaseAgent agent_id => lockReleaseAgent agent_id st

/-- Run a sequence of lock operations from the empty table. -/
def runLockOps (norm : String → String) (ops : List LockOp) : List FileLock :=
  ops.foldl (lockStep norm) []

/-- The multi-reader/single-writer invariant: two locks on the same stored
(canonicalized) path held by distinct agents are never write locks. -/
def LockInvariant (st : List FileLock) : Prop :=
  ∀ l1 ∈ st, ∀ l2 ∈ st, l1.path = l2.path → l1.agent_id ≠ l2.agent_id →
    l1.lock_type ≠ .write ∧ l2.lock_type ≠ .write

/-! ## Pre-flight conflict analysis (`detect_potential_conflicts` in
`src/coordinator/engine/conflict.py`)

Subtask indices play the role of the Python `idx` values; path resolution
(`str(Path(path).resolve())`) is again the abstract `norm`. -/

structure PlannedSubtask where
  files : List String
  lock_type : LockType
deriving DecidableEq, Repr

/-- The `(idx, lock_type)` usage list accumulated for a normalized path `p`
(`file_usage[p]`), in iteration order. -/
def fileUsage (norm : String → String) (subtasks : List PlannedSubtask)
    (p : String) : List (Nat × LockType) :=
  subtasks.enum.flatMap (fun ist =>
    (ist.2.files.filter (fun f => norm f = p)).map
      (fun _ => (ist.1, ist.2.lock_type)))

/-- First-occurrence deduplication (Python dict keys keep insertion
order). -/
def dedupAcc (seen : List String) : List String → List String
  | [] => []
  | x :: xs =>
      if x ∈ seen then dedupAcc seen xs
      else x :: dedupAcc (x :: seen) xs

/-- The normalized paths in first-occurrence order: the keys of
`file_usage`. -/
def uniqueNormPaths (norm : String → String)
    (subtasks : List PlannedSubtask) : List String :=
  dedupAcc [] (subtasks.flatMap (fun st => st.files.map norm))

/-- All ordered index pairs of a usage list in which at least one side is a
writer, as `(min, max)` — the per-path inner double loop. -/
def usagePairs : List (Nat × LockType) → List (Nat × Nat)
  | [] => []
  | u :: rest =>
      (rest.filterMap (fun v =>
        if u.2 = LockType.write ∨ v.2 = LockType.write then
          some (min u.1 v.1, max u.1 v.1)
        else none))
      ++ usagePairs rest

/-- The `conflicting_pairs` set (as a list; only membership matters). -/
def conflictingPairs (norm : String → String)
    (subtasks : List PlannedSubtask) : List (Nat × Nat) :=
  (uniqueNormPaths norm subtasks).flatMap
    (fun p => usagePairs (fileUsage norm subtasks p))

/-- The `conflicts` report entries `(path, idx1, idx2, lock1, lock2)`. -/
def conflictsReport (norm : String → String)
    (subtasks : List PlannedSubtask) :
    List (String × Nat × Nat × LockType × LockType) :=
  (uniqueNormPaths norm subtasks).flatMap (fun p =>
    conflictEntries p (fileUsage norm subtasks p))
where
  conflictEntries (p : String) : List (Nat × LockType) →
      List (String × Nat × Nat × LockType × LockType)
    | [] => []
    | u :: rest =>
        (rest.filterMap (fun v =>
          if u.2 = LockType.write ∨ v.2 = LockType.write then
            some (p, u.1, v.1, u.2, v.2)
          else none))
        ++ conflictEntries p rest

/-- `can_add`: no member of the current group conflicts with the
candidate. -/
def groupCanAdd (pairs : List (Nat × Nat)) (group : List Nat)
    (other : Nat) : Bool :=
  group.all (fun member => ¬ (min member other, max member other) ∈ pairs)

/-- The inner loop: try to add each later subtask to the group. -/
def extendGroup (pairs : List (Nat × Nat)) :
    List Nat → List Nat → List Nat → List Nat × List Nat
  | [], group, assigned => (group, assigned)
  | other :: rest, group, assigned =>
      if other ∈ assigned then extendGroup pairs rest group assigned
      else if groupCanAdd pairs group other then
        extendGroup pairs rest (group ++ [other]) (other :: assigned)
      else extendGroup pairs rest group assigned

/-- The outer greedy first-fit loop over subtask indices. -/
def buildGroupsGo (pairs : List (Nat × Nat)) :
    List Nat → List Nat → List (List Nat)
  | [], _ => []
  | idx :: rest, assigned =>
      if idx ∈ assigned then buildGroupsGo pairs rest assigned
      else
        let extended := extendGroup pairs rest [idx] (idx :: assigned)
        extended.1 :: buildGroupsGo pairs rest extended.2

structure ConflictReport where
  has_conflicts : Bool
  can_parallelize : Bool
  conflicts : List (String × Nat × Nat × LockType × LockType)
  parallel_groups : List (List Nat)
deriving DecidableEq, Repr

/-- `detect_potential_conflicts`. -/
def detectPotentialConflicts (norm : String → String)
    (subtasks : List PlannedSubtask) : ConflictReport :=
  let conflicts := conflictsReport norm subtasks
  let pairs := conflictingPairs norm subtasks
  let parallel_groups := buildGroupsGo pairs (List.range subtasks.length) []
  { has_conflicts := conflicts.length > 0,
    can_parallelize :=
      parallel_groups.length > 0 &&
        parallel_groups.any (fun g => g.length > 1),
    conflicts := conflicts,
    parallel_groups := parallel_groups }

/-- The claim's conflict relation, stated from the spec's words: two planned
subtasks conflict iff they share a normalized path and at least one of the
two holds a write lock. -/
def conflictSpec (norm : String → String) (subtasks : List PlannedSubtask)
    (i j : Nat) : Prop :=
  ∃ si sj, subtasks[i]? = some si ∧ subtasks[j]? = some sj ∧
    ∃ f ∈ si.files, ∃ g ∈ sj.files, norm f = norm g ∧
      (si.lock_type = .write ∨ sj.lock_type = .write)

/-! ## Trust ledger (`src/coordinator/delegation/trust_ledger.py`)

The `trust_entries` table, keyed by `(agent_id, task_type)`, is embedded as a
list of entries with upsert-by-key; `time.time()` instants and the stored
`last_updated` timestamp are `ℚ` seconds (the strftime/strptime round trip is
abstracted as the identity on the instant). -/

structure TrustEntry where
  agent_id : String
  task_type : String
  success_count : Nat
  failure_count : Nat
  avg_quality : ℚ
  avg_duration : ℚ
  trust_score : ℚ
  last_updated : ℚ
deriving DecidableEq, Repr

def DECAY_DAYS : ℚ := 7
def DECAY_FACTOR : ℚ := 95/100

/-- `SELECT ... WHERE agent_id = ? AND task_type = ?` (unique by primary
key; the first match in the row list). -/
def findTrustEntry (agent task : String) (st : List TrustEntry) :
    Option TrustEntry :=
  st.find? (fun e => e.agent_id = agent ∧ e.task_type = task)

/-- `INSERT ... ON CONFLICT(agent_id, task_type) DO UPDATE`: replace the
existing keyed row, else append. -/
def trustUpsert (e : TrustEntry) : List TrustEntry → List TrustEntry
  | [] => [e]
  | x :: xs =>
      if x.agent_id = e.agent_id ∧ x.task_type = e.task_type then e :: xs
      else x :: trustUpsert e xs

/-- `TrustLedger.record_outcome`: validate inputs, update counts and running
means, recompute the Beta-posterior trust score `alpha/(alpha+beta)` with
`alpha = successes + 1`, `beta = failures + 1`, and upsert with
`last_updated = now`.  Returns the new trust score with the new table. -/
def recordOutcome (now : ℚ) (agent task : String) (success : Bool)
    (quality duration : ℚ) (st : List TrustEntry) :
    Except String (ℚ × List TrustEntry) :=
  if ¬ (0 ≤ quality ∧ quality ≤ 1) then
    .error "quality must be in [0.0, 1.0]"
  else if duration < 0 then
    .error "duration must be >= 0.0"
  else
    let updated : Nat × Nat × ℚ × ℚ :=
      match findTrustEntry agent task st with
      | some e =>
          let total : ℚ := (e.success_count : ℚ) + (e.failure_count : ℚ)
          ((if success then e.success_count + 1 else e.success_count),
           (if success then e.failure_count else e.failure_count + 1),
           (e.avg_quality * total + quality) / (total + 1),
           (e.avg_duration * total + duration) / (total + 1))
      | none =>
          ((if success then 1 else 0), (if success then 0 else 1),
           quality, duration)
    match updated with
    | (s, f, aq, ad) =>
        let alpha : ℚ := (s : ℚ) + 1
        let beta : ℚ := (f : ℚ) + 1
        let trust : ℚ := alpha / (alpha + beta)
        .ok (trust,
          trustUpsert
            { agent_id := agent, task_type := task, success_count := s,
              failure_count := f, avg_quality := aq, avg_duration := ad,
              trust_score := trust, last_updated := now } st)

/-- `TrustLedger.get_trust_score`: 0.5 when no entry exists; otherwise the
stored score, decayed by 0.95 and clamped when at least `DECAY_DAYS` days
have elapsed since `last_updated`. -/
def getTrustScore (now : ℚ) (agent task : String) (st : List TrustEntry) : ℚ :=
  match findTrustEntry agent task st with
  | none => 1/2
  | some e =>
      let days_since := (now - e.last_updated) / (24 * 3600)
      if DECAY_DAYS ≤ days_since then
        max 0 (min 1 (e.trust_score * DECAY_FACTOR))
      else e.trust_score

theorem findTrustEntry_upsert (e : TrustEntry) (st : List TrustEntry) :
    findTrustEntry e.agent_id e.task_type (trustUpsert e st) = some e := by
  induction st with
  | nil => simp [trustUpsert, findTrustEntry]
  | cons x xs ih =>
      by_cases hx : x.agent_id = e.agent_id ∧ x.task_type = e.task_type
      · simp [trustUpsert, hx, findTrustEntry]
      · simpa [trustUpsert, hx, findTrustEntry] using ih

/-! ## Delegation data model (`src/coordinator/delegation/models.py`) -/

inductive VerificationMethod where
  | automated_test
  | semantic_similarity
  | human_review
  | ground_truth
deriving DecidableEq, Repr

/-- The 11-dimensional task profile; Python `float`s are rationals. -/
structure TaskProfile where
  complexity : ℚ := 1/2
  criticality : ℚ := 1/2
  uncertainty : ℚ := 1/2
  duration : ℚ := 1/2
  cost : ℚ := 1/2
  resource_requirements : ℚ := 1/2
  constraints : ℚ := 1/2
  verifiability : ℚ := 1/2
  reversibility : ℚ := 1/2
  contextuality : ℚ := 1/2
  subjectivity : ℚ := 1/2
deriving DecidableEq, Repr

/-- A value in a Python `dict[str, Any]` metadata mapping, restricted to the
shapes the embedded code stores. -/
inductive MetaVal where
  | bool (b : Bool)
  | nat (n : Nat)
  | rat (q : ℚ)
  | str (s : String)
  | strList (l : List String)
deriving DecidableEq, Repr

structure SubTask where
  id : String
  description : String
  verification_method : VerificationMethod
  estimated_cost : ℚ
  estimated_duration : ℚ
  parallel_safe : Bool
  parent_task_id : Option String := none
  dependencies : List String := []
  profile : Option TaskProfile := none
  metadata : List (String × MetaVal) := []
deriving DecidableEq, Repr

structure AgentCapability where
  agent_id : String
  name : String
  description : String
  keywords : List String := []
  estimated_cost : ℚ := 1/2
deriving DecidableEq, Repr

/-- An `Assignment`; the free-text `assignment_reasoning` string (built with
float formatting) is not modelled. -/
structure Assignment where
  subtask_id : String
  agent_id : String
  trust_score : ℚ
  capability_match : ℚ
  timestamp : ℚ
  metadata : List (String × MetaVal) := []
deriving DecidableEq, Repr

/-! ## Router (`src/coordinator/delegation/router.py`) -/

def MIN_COMPLEXITY_FOR_DELEGATION : ℚ := 1/5
def CAPABILITY_WEIGHT : ℚ := 6/10
def TRUST_WEIGHT : ℚ := 3/10
def COST_WEIGHT : ℚ := 1/10

def isWordChar (c : Char) : Bool := c.isAlphanum || c = '_'

/-- Maximal runs of `\w` characters: `re.findall(r"\w+", text)`. -/
def wordRuns (acc : List Char) : List Char → List (List Char)
  | [] => if acc.isEmpty then [] else [acc.reverse]
  | c :: cs =>
      if isWordChar c then wordRuns (c :: acc) cs
      else (if acc.isEmpty then [] else [acc.reverse]) ++ wordRuns [] cs

def findallWords (s : String) : List String :=
  (wordRuns [] s.toList).map List.asString

def routerStopwords : List String :=
  ["the", "and", "for", "from", "with", "this", "that",
   "are", "was", "will", "can", "has", "have", "been",
   "get", "set", "list", "find", "search", "load", "create"]

/-- `_extract_keywords`: lower-case `\w+` tokens of length ≥ 4 that are not
stop words, deduplicated (`list(set(...))`; Python's arbitrary set order is
modelled as first-occurrence order — no caller depends on the order). -/
def extractKeywords (text : String) : List String :=
  ((findallWords text.toLower).filter
    (fun w => 4 ≤ w.length ∧ ¬ routerStopwords.contains w)).dedup

/-- `_calculate_capability_match`. -/
def calculateCapabilityMatch (subtask : SubTask) (agent : AgentCapability) : ℚ :=
  let subtask_keywords := extractKeywords subtask.description
  if subtask_keywords.isEmpty ∨ agent.keywords.isEmpty then 0
  else
    let overlap := (subtask_keywords.filter
      (fun w => agent.keywords.contains w)).length
    (overlap : ℚ) / (max subtask_keywords.length agent.keywords.length : ℚ)

structure ScoredAgent where
  agent : AgentCapability
  capability_match : ℚ
  trust_score : ℚ
  cost_efficiency : ℚ
  final_score : ℚ
deriving DecidableEq, Repr

/-- Stable insertion placing `x` after every element strictly "before" it;
with `lt` as the strict sort-key comparison this is Python's stable sort. -/
def insertByLt (lt : α → α → Bool) (x : α) : List α → List α
  | [] => [x]
  | y :: ys => if lt y x then y :: insertByLt lt x ys else x :: y :: ys

def sortByLt (lt : α → α → Bool) : List α → List α
  | [] => []
  | x :: xs => insertByLt lt x (sortByLt lt xs)

/-- Python dict lookup with a default: `trust_scores.get(agent_id, 0.5)`. -/
def lookupD (m : List (String × ℚ)) (k : String) (d : ℚ) : ℚ :=
  match m.find? (fun kv => kv.1 = k) with
  | some kv => kv.2
  | none => d

/-- `route_subtask`: bypass to `DIRECT_EXECUTION` when the profile is present
with complexity strictly below the threshold; otherwise score every agent by
`0.6·capability + 0.3·trust + 0.1·cost_efficiency`, sort stably by
descending final score, and pick the winner (or fall back to
`DIRECT_EXECUTION` when no agents are available). -/
def routeSubtask (now : ℚ) (subtask : SubTask)
    (available_agents : List AgentCapability)
    (trust_scores : List (String × ℚ)) : Assignment :=
  match subtask.profile with
  | some p =>
      if p.complexity < MIN_COMPLEXITY_FOR_DELEGATION then
        { subtask_id := subtask.id, agent_id := "DIRECT_EXECUTION",
          trust_score := 1, capability_match := 1, timestamp := now,
          metadata := [("delegation_bypassed", .bool true)] }
      else routeScored now subtask available_agents trust_scores
  | none => routeScored now subtask available_agents trust_scores
where
  /-- The scoring path shared by the `profile is None` and the
  at-or-above-threshold cases. -/
  routeScored (now : ℚ) (subtask : SubTask)
      (available_agents : List AgentCapability)
      (trust_scores : List (String × ℚ)) : Assignment :=
    let scored_agents := available_agents.map (fun agent =>
      let capability_match := calculateCapabilityMatch subtask agent
      let trust_score := lookupD trust_scores agent.agent_id (1/2)
      let cost_efficiency :=
        match subtask.profile with
        | some _ => 1 - |subtask.estimated_cost - agent.estimated_cost|
        | none => 1/2
      { agent := agent, capability_match := capability_match,
        trust_score := trust_score, cost_efficiency := cost_efficiency,
        final_score := capability_match * CAPABILITY_WEIGHT
          + trust_score * TRUST_WEIGHT + cost_efficiency * COST_WEIGHT
        : ScoredAgent })
    match sortByLt (fun a b => b.final_score < a.final_score) scored_agents with
    | [] =>
        { subtask_id := subtask.id, agent_id := "DIRECT_EXECUTION",
          trust_score := 1/2, capability_match := 0, timestamp := now,
          metadata := [("no_agents_available", .bool true)] }
    | best :: rest =>
        { subtask_id := subtask.id, agent_id := best.agent.agent_id,
          trust_score := best.trust_score,
          capability_match := best.capability_match, timestamp := now,
          metadata := [("final_score", .rat best.final_score),
            ("cost_efficiency", .rat best.cost_efficiency),
            ("agent_name", .str best.agent.name),
            ("agent_description", .str best.agent.description),
            ("fallback_chain",
              .strList ((rest.take 3).map (fun s => s.agent.agent_id)))] }

/-! ## String helpers shared by the embedded modules

Python's `in` on strings is substring containment; `str.lower()` and slicing
are modelled on character lists (avoiding `String.map`'s position-based
recursion, which does not reduce). -/

def charsStartWith : List Char → List Char → Bool
  | [], _ => true
  | _ :: _, [] => false
  | a :: as, b :: bs => a = b && charsStartWith as bs

def charsContain (needle : List Char) : List Char → Bool
  | [] => needle.isEmpty
  | l@(_ :: t) => charsStartWith needle l || charsContain needle t

/-- Python `needle in haystack` on strings. -/
def strContains (haystack needle : String) : Bool :=
  charsContain needle.toList haystack.toList

/-- Python `str.lower()` (ASCII inputs). -/
def pyLower (s : String) : String := (s.toList.map Char.toLower).asString

/-- Python `s[:n]`. -/
def pyTake (n : Nat) (s : String) : String := (s.toList.take n).asString

/-! ## Decomposer (`src/coordinator/delegation/decomposer.py`)

`uuid.uuid4().hex[:8]` id suffixes are modelled by a generator `gen : Nat →
String` giving the suffix of the n-th id drawn; a draw counter is threaded
through the functions.  The fact used by the proofs — a `uuid4().hex[:8]`
suffix has exactly 8 characters — becomes a hypothesis on `gen`. -/

def MIN_VERIFIABILITY : ℚ := 3/10
def MAX_DEPTH : Nat := 4

/-- One `(description, verification_method, cost, duration, parallel, deps)`
template row of `_heuristic_decompose`. -/
abbrev TemplateRow : Type :=
  String × VerificationMethod × ℚ × ℚ × Bool × List String

/-- The keyword-selected template family of `_heuristic_decompose`. -/
def heuristicTemplates (task : String) : List TemplateRow :=
  let task_lower := pyLower task
  if ["build", "create", "develop", "implement system"].any
      (fun kw => strContains task_lower kw) then
    [("Design system architecture", .human_review, 4/10, 3/10, false, []),
     ("Implement core functionality", .automated_test, 5/10, 6/10, false,
       ["subtask-0"]),
     ("Add tests and validation", .automated_test, 3/10, 3/10, false,
       ["subtask-1"]),
     ("Deploy and verify", .ground_truth, 4/10, 4/10, false, ["subtask-2"])]
  else if ["research", "investigate", "explore", "analyze"].any
      (fun kw => strContains task_lower kw) then
    [("Survey existing solutions", .human_review, 3/10, 4/10, true, []),
     ("Analyze findings", .semantic_similarity, 4/10, 5/10, false,
       ["subtask-0"]),
     ("Synthesize recommendations", .human_review, 5/10, 4/10, false,
       ["subtask-1"])]
  else if ["implement", "code", "write"].any
      (fun kw => strContains task_lower kw) then
    [("Plan implementation approach", .human_review, 3/10, 2/10, false, []),
     ("Write code", .automated_test, 5/10, 6/10, false, ["subtask-0"]),
     ("Add tests", .automated_test, 3/10, 3/10, false, ["subtask-1"])]
  else
    [("Understand requirements", .human_review, 2/10, 2/10, false, []),
     ("Execute main task", .automated_test, 6/10, 6/10, false, ["subtask-0"]),
     ("Verify completion", .ground_truth, 3/10, 2/10, false, ["subtask-1"])]

/-- The per-template child profile of `_heuristic_decompose`. -/
def heuristicChildProfile (profile : TaskProfile) (cost duration : ℚ) :
    TaskProfile :=
  { complexity := max (2/10) (profile.complexity * (6/10)),
    criticality := profile.criticality,
    uncertainty := max (2/10) (profile.uncertainty * (7/10)),
    duration := duration,
    cost := cost,
    resource_requirements := profile.resource_requirements * (5/10),
    constraints := profile.constraints * (5/10),
    verifiability := 7/10,
    reversibility := max (5/10) profile.reversibility,
    contextuality := profile.contextuality * (6/10),
    subjectivity := profile.subjectivity * (5/10) }

/-- The template-to-`SubTask` loop of `_heuristic_decompose`. -/
def buildSubtasks (gen : Nat → String) (task : String) (profile : TaskProfile)
    (parent : Option String) (depth : Nat) :
    Nat → List TemplateRow → List SubTask × Nat
  | ctr, [] => ([], ctr)
  | ctr, (desc, method, cost, duration, parallel, deps) :: rest =>
      let st : SubTask :=
        { id := "subtask-" ++ gen ctr,
          description := desc ++ " for: " ++ pyTake 50 task,
          verification_method := method,
          estimated_cost := cost, estimated_duration := duration,
          parallel_safe := parallel, parent_task_id := parent,
          dependencies := deps,
          profile := some (heuristicChildProfile profile cost duration),
          metadata := [("depth", .nat depth), ("heuristic", .bool true)] }
      let tail := buildSubtasks gen task profile parent depth (ctr + 1) rest
      (st :: tail.1, tail.2)

/-- `_heuristic_decompose`. -/
def heuristicDecompose (gen : Nat → String) (ctr : Nat) (task : String)
    (profile : TaskProfile) (parent : Option String) (depth : Nat) :
    List SubTask × Nat :=
  buildSubtasks gen task profile parent depth ctr (heuristicTemplates task)

/-- An optional LLM decomposition callable; `.error` models a raised
exception (silently falling back to heuristics). -/
def LlmFn : Type :=
  String → TaskProfile → Option String → Nat → Except Unit (List SubTask)

/-- The depth-bound leaf of `_recursive_decompose`: a single
"forced-verifiable" subtask with verifiability set to exactly 0.3, human
review, and `forced_verifiable=true` metadata. -/
def forcedLeaf (gen : Nat → String) (ctr : Nat) (task : String)
    (profile : TaskProfile) (parent : Option String) (depth : Nat) : SubTask :=
  { id := "subtask-" ++ gen ctr,
    description := task,
    verification_method := .human_review,
    estimated_cost := profile.cost,
    estimated_duration := profile.duration,
    parallel_safe := true,
    parent_task_id := parent,
    dependencies := [],
    profile := some { profile with verifiability := MIN_VERIFIABILITY },
    metadata := [("depth", .nat depth), ("forced_verifiable", .bool true)] }

mutual

/-- `_recursive_decompose`: at the depth bound emit the forced-verifiable
leaf; otherwise seed children from the LLM callable (falling back to
heuristics on failure) and recurse on any child whose profile verifiability
is below the threshold. -/
def recursiveDecompose (llm : Option LlmFn) (gen : Nat → String)
    (task : String) (profile : TaskProfile) (parent : Option String)
    (depth ctr : Nat) : List SubTask × Nat :=
  if h : MAX_DEPTH ≤ depth then
    ([forcedLeaf gen ctr task profile parent depth], ctr + 1)
  else
    let seeded :=
      match llm with
      | some f =>
          match f task profile parent depth with
          | .ok sts => (sts, ctr)
          | .error _ => heuristicDecompose gen ctr task profile parent depth
      | none => heuristicDecompose gen ctr task profile parent depth
    verifyChildren llm gen depth (Nat.lt_of_not_le h) seeded.1 seeded.2
termination_by (MAX_DEPTH - depth, 1, 0)

/-- The verification loop of `_recursive_decompose`: keep children whose
profile is absent or meets the verifiability threshold, and expand the rest
recursively one level deeper. -/
def verifyChildren (llm : Option LlmFn) (gen : Nat → String) (depth : Nat)
    (h : depth < MAX_DEPTH) (sts : List SubTask) (ctr : Nat) :
    List SubTask × Nat :=
  match sts with
  | [] => ([], ctr)
  | st :: rest =>
      match st.profile with
      | some p =>
          if p.verifiability < MIN_VERIFIABILITY then
            let nested := recursiveDecompose llm gen st.description p
              (some st.id) (depth + 1) ctr
            let tail := verifyChildren llm gen depth h rest nested.2
            (nested.1 ++ tail.1, tail.2)
          else
            let tail := verifyChildren llm gen depth h rest ctr
            (st :: tail.1, tail.2)
      | none =>
          let tail := verifyChildren llm gen depth h rest ctr
          (st :: tail.1, tail.2)
termination_by (MAX_DEPTH - depth, 0, sts.length)

end

/-- `id_to_task.get(dep_id, <default with parallel_safe=False>)` — the dict
binds each id to the (mutated-in-place) subtask object, keeping the last
binding for a duplicated id; a missing id yields the non-parallel-safe
default. -/
def depsAllParallelSafe (tasks : List SubTask) (deps : List String) : Bool :=
  deps.all (fun dep_id =>
    match tasks.reverse.find? (fun t => t.id = dep_id) with
    | some t => t.parallel_safe
    | none => false)

/-- One index step of a `_analyze_dependencies` pass over the evolving
list. -/
def onePassGo : Nat → Nat → List SubTask → Bool → List SubTask × Bool
  | 0, _, tasks, changed => (tasks, changed)
  | k + 1, i, tasks, changed =>
      match tasks[i]? with
      | none => (tasks, changed)
      | some st =>
          if st.parallel_safe ∧ st.dependencies ≠ [] ∧
              ¬ depsAllParallelSafe tasks st.dependencies then
            onePassGo k (i + 1) (tasks.set i { st with parallel_safe := false })
              true
          else onePassGo k (i + 1) tasks changed

/-- The `while changed` loop of `_analyze_dependencies`; each changing pass
clears at least one `parallel_safe` flag, so `length + 1` passes reach the
fixed point. -/
def analyzeLoop : Nat → List SubTask → List SubTask
  | 0, tasks => tasks
  | fuel + 1, tasks =>
      let pass := onePassGo tasks.length 0 tasks false
      if pass.2 then analyzeLoop fuel pass.1 else pass.1

/-- `_analyze_dependencies`. -/
def analyzeDependencies (tasks : List SubTask) : List SubTask :=
  analyzeLoop (tasks.length + 1) tasks

/-- `decompose_task` (its `max_depth` argument is unused by the source: the
recursion reads the module-level `MAX_DEPTH`). -/
def decomposeTask (gen : Nat → String) (task : String) (profile : TaskProfile)
    (llm : Option LlmFn) : List SubTask :=
  analyzeDependencies (recursiveDecompose llm gen task profile none 0 0).1

/-! ## Executor (`src/coordinator/engine/executor.py`)

`spawn_cli_agent` is embedded up to the subprocess launch: registration,
lock acquisition, prompt validation and the `registry.start` call.  The
subprocess itself and the subsequent completion/finally block are outside
the model (the claim under verification concerns only the validation-error
path, which raises before the `try` block is entered). -/

def MAX_PROMPT_LENGTH : Nat := 50000

structure AgentConfig where
  subtask : String
  prompt : String
  agent_type : String
  model : String := "sonnet"
  files_to_lock : List String := []
  lock_type : LockType := .read
  dq_score : ℚ := 1/2
  cost_estimate : ℚ := 0
deriving Repr

/-- `AgentExecutor._validate_prompt`: reject empty or whitespace-only
prompts and prompts longer than 50 000 characters; otherwise strip
non-printable characters except newline and tab. -/
def validatePrompt (prompt : String) : Except String String :=
  if prompt.toList.all (fun c => c.isWhitespace) then
    .error "Prompt cannot be empty"
  else if prompt.length > MAX_PROMPT_LENGTH then
    .error "Prompt exceeds maximum length"
  else
    .ok ((prompt.toList.filter
      (fun c => c = '\n' ∨ c = '\t' ∨ 32 ≤ c.toNat)).asString)

/-- Combined executor-visible state: registry rows plus the lock table. -/
structure ExecState where
  registry : List AgentRecord
  locks : List FileLock
deriving Repr

inductive SpawnOutcome where
  | lockFailed (agent_id : String)
  | raised (msg : String)
  | launched (agent_id : String) (safe_prompt : String)
deriving DecidableEq, Repr

/-- `AgentExecutor.spawn_cli_agent` up to the subprocess launch: register the
agent (state `pending`), acquire the requested locks (on failure mark the
agent failed and return), then validate the prompt — a validation error
raises at this point, after registration and lock acquisition — and finally
mark the agent started. -/
def spawnPrefix (norm : String → String) (now : Nat) (aid : String)
    (config : AgentConfig) (task_id : String) (st : ExecState) :
    SpawnOutcome × ExecState :=
  let regs1 := registryRegister now aid task_id config.subtask
    config.agent_type config.model config.files_to_lock
    config.dq_score config.cost_estimate st.registry
  if config.files_to_lock.isEmpty then
    spawnValidate now aid config regs1 st.locks
  else
    let batch := lockAcquireBatch norm now config.files_to_lock aid
      config.lock_type st.locks
    if batch.1.1 then spawnValidate now aid config regs1 batch.2
    else
      (.lockFailed aid,
        { registry := registryFail now
            ("Could not acquire locks: " ++ String.intercalate ", " batch.1.2)
            aid regs1,
          locks := batch.2 })
where
  /-- The tail of `spawn_cli_agent` after lock acquisition: validate, then
  start. -/
  spawnValidate (now : Nat) (aid : String) (config : AgentConfig)
      (regs : List AgentRecord) (locks : List FileLock) :
      SpawnOutcome × ExecState :=
    match validatePrompt config.prompt with
    | .error msg => (.raised msg, { registry := regs, locks := locks })
    | .ok safe =>
        (.launched aid safe,
         { registry := registryStart now aid regs, locks := locks })

/-! ## Result synthesis (`src/coordinator/engine/orchestrator.py`) -/

structure AgentResult where
  agent_id : String
  success : Bool
  output : String
  error : Option String := none
deriving DecidableEq, Repr

structure SynthesizedResult where
  status : String
  successful : Nat
  total : Nat
  combined_output : String
  errors : List String
deriving DecidableEq, Repr

/-- Whether a Python `str | None` field is truthy (`if r.error`). -/
def optStrTruthy : Option String → Bool
  | some s => s ≠ ""
  | none => false

/-- `MultiAgentOrchestrator._synthesize_results`, over the values of the
`agent_results` mapping in insertion order (the `assignments` and `strategy`
arguments are unused by the function body). -/
def synthesizeResults (agent_results : List AgentResult) : SynthesizedResult :=
  let successful := (agent_results.filter (fun r => r.success)).length
  let total := agent_results.length
  let combined_output := String.intercalate "\n\n"
    ((agent_results.filter (fun r => r.success)).map
      (fun r => "## Agent " ++ r.agent_id ++ "\n" ++ r.output))
  let errors := (agent_results.filter (fun r => optStrTruthy r.error)).filterMap
    (fun r => r.error)
  let status :=
    if successful = total then "success"
    else if successful > 0 then "partial"
    else "failed"
  { status := status, successful := successful, total := total,
    combined_output := combined_output, errors := errors }

/-! ## Complexity analyzer (`src/coordinator/scoring/complexity_analyzer.py`)

The two `re.search` helpers are embedded with a small matcher covering
exactly the constructs those patterns use (literals, alternation,
one-or-more character classes, optional literal, `\b`, `^`, `$`);
`re.IGNORECASE` is modelled by lowering the input against lowercase
literals, `\w` as ASCII alphanumeric-or-underscore and `\s` as
whitespace. -/

inductive RE where
  | lit (s : List Char)
  | alt (a b : RE)
  | seq (a b : RE)
  | plusCls (p : Char → Bool)
  | opt (a : RE)
  | bound
  | bol
  | eol

/-- Match a literal, tracking the previous character for `\b`. -/
def litMatch : List Char → Option Char → List Char →
    Option (Option Char × List Char)
  | [], prev, cs => some (prev, cs)
  | a :: as, _, c :: cs => if a = c then litMatch as (some c) cs else none
  | _ :: _, _, [] => none

/-- All ways to consume one or more characters of a class. -/
def clsPlus (p : Char → Bool) : Option Char → List Char →
    List (Option Char × List Char)
  | _, [] => []
  | _, c :: cs => if p c then (some c, cs) :: clsPlus p (some c) cs else []

def isWordB : Option Char → Bool
  | some c => isWordChar c
  | none => false

/-- All match continuations of a pattern against a position (previous
character, remaining input). -/
def reMatch : RE → Option Char → List Char → List (Option Char × List Char)
  | .lit s, prev, cs =>
      match litMatch s prev cs with
      | some r => [r]
      | none => []
  | .alt a b, prev, cs => reMatch a prev cs ++ reMatch b prev cs
  | .seq a b, prev, cs =>
      (reMatch a prev cs).flatMap (fun r => reMatch b r.1 r.2)
  | .plusCls p, prev, cs => clsPlus p prev cs
  | .opt a, prev, cs => (prev, cs) :: reMatch a prev cs
  | .bound, prev, cs =>
      if isWordB prev ≠ (match cs with
          | [] => false
          | c :: _ => isWordChar c) then [(prev, cs)]
      else []
  | .bol, prev, cs => if prev = none then [(prev, cs)] else []
  | .eol, prev, cs => if cs.isEmpty then [(prev, cs)] else []

/-- `re.search`: try a match at every start position. -/
def reSearchAux (r : RE) (prev : Option Char) (cs : List Char) : Bool :=
  !(reMatch r prev cs).isEmpty ||
    (match cs with
     | [] => false
     | c :: rest => reSearchAux r (some c) rest)

def reStr (s : String) : RE := .lit s.toList

def reAltList : List String → RE
  | [] => .plusCls (fun _ => false)
  | [s] => reStr s
  | s :: rest => .alt (reStr s) (reAltList rest)

def wsChar (c : Char) : Bool := c.isWhitespace

def reSeqList : List RE → RE
  | [] => .lit []
  | [r] => r
  | r :: rest => .seq r (reSeqList rest)

/-- `requires_project_context`: the three `\b...` patterns. -/
def requiresProjectContext (query : String) : Bool :=
  let cs := (pyLower query).toList
  reSearchAux (reSeqList [.bound, reAltList ["this", "our", "my", "the"],
    .plusCls wsChar, .plusCls isWordChar, .plusCls wsChar,
    reAltList ["file", "code", "project", "app", "component"]]) none cs ||
  reSearchAux (reSeqList [.bound, reStr "in", .plusCls wsChar,
    reAltList ["this", "the"], .plusCls wsChar,
    reAltList ["codebase", "repo", "project"]]) none cs ||
  reSearchAux (reSeqList [.bound, reStr "current", .plusCls wsChar,
    reAltList ["file", "directory", "project"]]) none cs

/-- `is_conversational`: the three `^`-anchored patterns plus the length
guard. -/
def isConversational (query : String) : Bool :=
  let cs := (pyLower query).toList
  (reSearchAux (reSeqList [.bol, reAltList ["hi", "hello", "hey", "thanks",
      "thank you", "ok", "okay", "yes", "no", "sure"]]) none cs ||
   reSearchAux (reSeqList [.bol, reStr "what ", reAltList ["is", "are"],
      reStr " ", .plusCls isWordChar, .opt (reStr "?"), .eol]) none cs ||
   reSearchAux (reSeqList [.bol, reAltList ["how", "can", "could"],
      reStr " ", reAltList ["do", "can"], reStr " ",
      reAltList ["i", "you"]]) none cs) &&
  query.length < 50

def codeKeywords : List String :=
  ["function", "class", "async", "import", "export", "const", "let", "var",
   "interface", "type", "enum", "module", "require", "def ", "return"]

def architectureKeywords : List String :=
  ["design", "architecture", "system", "refactor", "restructure", "pattern",
   "microservice", "distributed", "scalable", "optimize"]

def debugKeywords : List String :=
  ["error", "fix", "bug", "debug", "why", "not working", "broken", "crash",
   "exception", "failed", "issue", "problem"]

def multiFileKeywords : List String :=
  ["across", "all files", "every", "multiple", "entire codebase",
   "project-wide", "refactor all", "update all"]

def analysisKeywords : List String :=
  ["analyze", "review", "audit", "compare", "evaluate", "assess",
   "investigate", "research", "study", "understand"]

def creationKeywords : List String :=
  ["create", "build", "implement", "develop", "write", "generate", "make",
   "add", "new feature", "from scratch"]

def simpleKeywords : List String :=
  ["what is", "how to", "explain", "show me", "list", "print", "hello",
   "thanks", "yes", "no", "ok"]

/-- The `SIGNALS`/`WEIGHTS` tables in their shared iteration order. -/
def signalCategories : List (List String × ℚ) :=
  [(codeKeywords, 15/100), (architectureKeywords, 25/100),
   (debugKeywords, 10/100), (multiFileKeywords, 20/100),
   (analysisKeywords, 15/100), (creationKeywords, 10/100),
   (simpleKeywords, -(15/100))]

/-- `count_signals`: keywords contained (as substrings) in the lowered
query. -/
def countSignals (query : String) (kws : List String) : Nat :=
  (kws.filter (fun kw => strContains (pyLower query) kw)).length

/-- `estimate_tokens`: `max(1, len(text) // 4)`. -/
def estimateTokens (text : String) : Nat := max 1 (text.length / 4)

/-- The token-length band score of `estimate_complexity`. -/
def tokenBandScore (tokens : Nat) : ℚ :=
  if tokens ≤ 20 then 1/10
  else if tokens ≤ 100 then 3/10
  else if tokens ≤ 500 then 6/10
  else 9/10

/-- The signal-category contribution: weight times match count capped at
three, for categories with at least one match. -/
def signalScore (query : String) : ℚ :=
  (signalCategories.map (fun cat =>
    let count := countSignals query cat.1
    if count > 0 then cat.2 * ((min count 3 : Nat) : ℚ) else 0)).sum

/-- Python `round(q, 3)` (ties round half up here; Python uses half-even,
and none of the verified facts sit on a tie within float error). -/
def round3 (q : ℚ) : ℚ := ((round (q * 1000) : ℤ) : ℚ) / 1000

/-- The `score` field of `estimate_complexity`: token band + signal
contributions + project-context bonus − conversational reduction, clamped
to [0, 1] and rounded to 3 digits. -/
def estimateComplexityScore (query : String) : ℚ :=
  let base := tokenBandScore (estimateTokens query) + signalScore query
  let base2 := if requiresProjectContext query then base + 15/100 else base
  let base3 := if isConversational query then base2 - 20/100 else base2
  round3 (max 0 (min 1 base3))

/-! ## DQ scorer (`src/coordinator/scoring/dq_scorer.py`), with the default
(hardcoded) baselines: weights {0.35, 0.25, 0.40}, threshold 0.5, the
default model capabilities and the default opus thinking tiers. -/

inductive ModelName where
  | haiku
  | sonnet
  | opus
deriving DecidableEq, Repr

def maxComplexity : ModelName → ℚ
  | .haiku => 20/100
  | .sonnet => 70/100
  | .opus => 1

def costPerMtokInput : ModelName → ℚ
  | .haiku => 8/10
  | .sonnet => 3
  | .opus => 5

def costPerMtokOutput : ModelName → ℚ
  | .haiku => 4
  | .sonnet => 15
  | .opus => 25

/-- `assess_validity` with default capabilities. -/
def assessValidity (complexity : ℚ) (model : ModelName) : ℚ :=
  let cap := maxComplexity model
  if complexity ≤ cap then
    if model = .opus ∧ complexity < 1/2 then 6/10
    else if model = .sonnet ∧ complexity < 2/10 then 7/10
    else 1 - (cap - complexity) * (2/10)
  else max 0 (1 - (complexity - cap) * 2)

/-- The first matching `ADAPTIVE_THRESHOLDS` band (ideal model defaults to
opus when no band contains the complexity). -/
def idealModel (c : ℚ) : ModelName :=
  if 0 ≤ c ∧ c < 25/100 then .haiku
  else if 25/100 ≤ c ∧ c < 50/100 then .sonnet
  else if 50/100 ≤ c ∧ c < 75/100 then .sonnet
  else if 75/100 ≤ c ∧ c < 1 then .opus
  else .opus

def modelIdx : ModelName → Nat
  | .haiku => 0
  | .sonnet => 1
  | .opus => 2

/-- `assess_specificity`. -/
def assessSpecificity (c : ℚ) (model : ModelName) : ℚ :=
  let ideal := idealModel c
  if model = ideal then 1
  else
    let distance := ((modelIdx ideal : ℤ) - (modelIdx model : ℤ)).natAbs
    max 0 (1 - (distance : ℚ) * (4/10))

structure DQScore where
  score : ℚ
  validity : ℚ
  specificity : ℚ
  correctness : ℚ
  actionable : Bool
deriving DecidableEq, Repr

/-- `calculate_dq` with default weights; standalone `assess_correctness`
returns the neutral 0.5. -/
def calculateDq (c : ℚ) (model : ModelName) : DQScore :=
  let validity := assessValidity c model
  let specificity := assessSpecificity c model
  let correctness : ℚ := 1/2
  let score := validity * (35/100) + specificity * (25/100)
    + correctness * (40/100)
  { score := round3 score, validity := round3 validity,
    specificity := round3 specificity, correctness := round3 correctness,
    actionable := 1/2 ≤ score }

/-- `get_thinking_effort` with the default opus tiers (dict order low,
medium, high, max; then the ≥ 0.95 fallback to max, else high). -/
def getThinkingEffort (c : ℚ) (model : ModelName) : Option String :=
  if model ≠ .opus then none
  else if 60/100 ≤ c ∧ c < 72/100 then some "low"
  else if 72/100 ≤ c ∧ c < 85/100 then some "medium"
  else if 85/100 ≤ c ∧ c < 95/100 then some "high"
  else if 95/100 ≤ c ∧ c < 1 then some "max"
  else if 95/100 ≤ c then some "max"
  else some "high"

/-- `estimate_cost` with default rates. -/
def estimateCostQ (model : ModelName) (query : String) : ℚ :=
  ((max 100 (query.length / 4) : Nat) : ℚ) * costPerMtokInput model / 1000000
    + 500 * costPerMtokOutput model / 1000000

/-- Python's stable sort key `(-dq.score, cost_order[model])`, as a strict
comparison. -/
def candLt (a b : ModelName × DQScore) : Bool :=
  b.2.score < a.2.score ∨
    (a.2.score = b.2.score ∧ modelIdx a.1 < modelIdx b.1)

structure ScoringResult where
  query : String
  complexity : ℚ
  model : ModelName
  thinking_effort : Option String
  dq : DQScore
  cost_estimate : ℚ
deriving DecidableEq, Repr

/-- `score`: estimate complexity, score every tier, sort by `(-DQ,
cost_rank)` and pick the winner; derive the thinking effort and cost. -/
def scoreQuery (query : String) : ScoringResult :=
  let c := estimateComplexityScore query
  let candidates := [ModelName.haiku, .sonnet, .opus].map
    (fun m => (m, calculateDq c m))
  let sorted := sortByLt candLt candidates
  let best := sorted.headD (ModelName.haiku, calculateDq c .haiku)
  { query := pyTake 200 query, complexity := c, model := best.1,
    thinking_effort := getThinkingEffort c best.1, dq := best.2,
    cost_estimate := estimateCostQ best.1 query }

end Coordinator

namespace Coordinator

/-! ## Theorems for claims C1 and C7 -/

/-- Claim C1, counterexample: terminal states are not absorbing.  Register an
agent, cancel it (state `cancelled`, terminal), then invoke `complete` on it:
the state changes to `completed`, so the transition `cancelled → completed`
occurs, contradicting the claim that a terminal agent's state is left
unchanged by `complete`. -/
theorem registry_terminal_not_absorbing :
    let regs0 := registryRegister 0 "agent-1" "task-1" "sub" "explore" "sonnet" [] (1/2) 0 []
    let regs1 := registryCancel 1 "agent-1" regs0
    let regs2 := registryComplete 2 none "agent-1" regs1
    registryState regs1 "agent-1" = some .cancelled ∧
    registryState regs2 "agent-1" = some .completed := by
  constructor <;> rfl

/-- Claim C1 (amended): the lifecycle operations are unconditional single-row
updates that never inspect the current state.  `start` always sets `running`;
`complete`, `fail`, `timeout` and `cancel` always set their respective
terminal state, from any current state (terminal states included, and
`pending` may jump directly to a terminal state); `heartbeat` never changes
the state column. -/
theorem registry_transitions_unconditional
    (regs : List AgentRecord) (aid : String) (now : Nat)
    (res : Option String) (err : String) (p : Option ℚ) :
    (∀ r ∈ registryStart now aid regs, r.agent_id = aid → r.state = .running) ∧
    (∀ r ∈ registryComplete now res aid regs, r.agent_id = aid → r.state = .completed) ∧
    (∀ r ∈ registryFail now err aid regs, r.agent_id = aid → r.state = .failed) ∧
    (∀ r ∈ registryTimeout now aid regs, r.agent_id = aid → r.state = .timeout) ∧
    (∀ r ∈ registryCancel now aid regs, r.agent_id = aid → r.state = .cancelled) ∧
    ((registryHeartbeat now p aid regs).map AgentRecord.state =
      regs.map AgentRecord.state) := by
  refine ⟨?_, ?_, ?_, ?_, ?_, ?_⟩
  · intro r hr hid
    simp only [registryStart, updateWhere, List.mem_map] at hr
    obtain ⟨r0, _, hr0⟩ := hr
    by_cases h : r0.agent_id = aid
    · simp [h] at hr0; subst hr0; rfl
    · simp [h] at hr0; subst hr0; exact absurd hid h
  · intro r hr hid
    simp only [registryComplete, updateWhere, List.mem_map] at hr
    obtain ⟨r0, _, hr0⟩ := hr
    by_cases h : r0.agent_id = aid
    · simp [h] at hr0; subst hr0; rfl
    · simp [h] at hr0; subst hr0; exact absurd hid h
  · intro r hr hid
    simp only [registryFail, updateWhere, List.mem_map] at hr
    obtain ⟨r0, _, hr0⟩ := hr
    by_cases h : r0.agent_id = aid
    · simp [h] at hr0; subst hr0; rfl
    · simp [h] at hr0; subst hr0; exact absurd hid h
  · intro r hr hid
    simp only [registryTimeout, updateWhere, List.mem_map] at hr
    obtain ⟨r0, _, hr0⟩ := hr
    by_cases h : r0.agent_id = aid
    · simp [h] at hr0; subst hr0; rfl
    · simp [h] at hr0; subst hr0; exact absurd hid h
  · intro r hr hid
    simp only [registryCancel, updateWhere, List.mem_map] at hr
    obtain ⟨r0, _, hr0⟩ := hr
    by_cases h : r0.agent_id = aid
    · simp [h] at hr0; subst hr0; rfl
    · simp [h] at hr0; subst hr0; exact absurd hid h
  · cases p <;>
      simp only [registryHeartbeat, updateWhere, List.map_map] <;>
      refine List.map_congr_left ?_ <;>
      intro r _ <;> by_cases h : r.agent_id = aid <;> simp [h]

/-- Witness for the amended claim C1 at a concrete one-row registry. -/
theorem registry_transitions_unconditional_witness :
    ∀ r ∈ registryComplete 2 none "agent-1"
        [{ agent_id := "agent-1", task_id := "t", subtask := "s",
           agent_type := "explore", model := "sonnet",
           state := .cancelled, created_at := 0 }],
      r.agent_id = "agent-1" → r.state = .completed := by
  have h := registry_transitions_unconditional
    [{ agent_id := "agent-1", task_id := "t", subtask := "s",
       agent_type := "explore", model := "sonnet",
       state := .cancelled, created_at := 0 }]
    "agent-1" 2 none "err" none
  exact h.2.1

/-- An invariant on lock tables survives passing to any subcollection. -/
theorem lockInvariant_of_subset {s st : List FileLock}
    (hsub : ∀ l ∈ s, l ∈ st) (h : LockInvariant st) : LockInvariant s :=
  fun l1 h1 l2 h2 => h l1 (hsub l1 h1) l2 (hsub l2 h2)

theorem lockInvariant_filter (p : FileLock → Bool) {st : List FileLock}
    (h : LockInvariant st) : LockInvariant (st.filter p) :=
  lockInvariant_of_subset (fun _ hl => List.mem_of_mem_filter hl) h

/-- A lock inserted by `lockAcquire` cannot form a write conflict with any
row that survived the conflict check. -/
theorem lockAcquire_preserves (norm : String → String) (now : Nat)
    (path agent_id : String) (lock_type : LockType) (st : List FileLock)
    (h : LockInvariant st) :
    LockInvariant (lockAcquire norm now path agent_id lock_type st).2 := by
  have hclean : LockInvariant (cleanupExpired now st) := lockInvariant_filter _ h
  cases hfind : ((cleanupExpired now st).filter
      (fun l => l.path = norm path)).find? (rowConflicts lock_type agent_id) with
  | some row =>
      -- the conflict list is nonempty: the failing branch returns the swept table
      simp only [lockAcquire, checkConflicts, List.flatMap_cons,
        List.flatMap_nil, hfind, List.append_nil, ne_eq]
      simp only [reduceCtorEq, not_false_eq_true, if_true]
      exact hclean
  | none =>
      have hnone : ∀ l ∈ cleanupExpired now st, l.path = norm path →
          rowConflicts lock_type agent_id l = false := by
        intro l hl hp
        have := List.find?_eq_none.mp hfind l (List.mem_filter.mpr ⟨hl, by simp [hp]⟩)
        simpa using this
      simp only [lockAcquire, checkConflicts, List.flatMap_cons,
        List.flatMap_nil, hfind, List.append_nil, ne_eq, not_true_eq_false,
        not_false_eq_true, if_neg, if_true]
      intro l1 h1 l2 h2 hpath hagents
      have hmem : ∀ l, l ∈ (cleanupExpired now (cleanupExpired now st)).filter
          (fun l => ¬ (l.path = norm path ∧ l.agent_id = agent_id)) →
          l ∈ cleanupExpired now st := by
        intro l hl
        exact List.mem_of_mem_filter (List.mem_of_mem_filter hl)
      -- a surviving row on the target path with a different owner passed the
      -- conflict predicate, so the request is a read and the row is not a write
      have hsafe : ∀ l, l ∈ cleanupExpired now st → l.path = norm path →
          l.agent_id ≠ agent_id →
          lock_type ≠ .write ∧ l.lock_type ≠ .write := by
        intro l hl hp hag
        have hrc := hnone l hl hp
        unfold rowConflicts at hrc
        rw [if_neg (by simp [hag])] at hrc
        cases lock_type with
        | write => simp at hrc
        | read =>
            refine ⟨by simp, ?_⟩
            simpa using hrc
      rcases List.mem_append.mp h1 with h1f | h1n <;>
        rcases List.mem_append.mp h2 with h2f | h2n
      · exact hclean l1 (hmem l1 h1f) l2 (hmem l2 h2f) hpath hagents
      · -- l2 is the new lock
        have hl2 := List.mem_singleton.mp h2n
        subst hl2
        have hp1 : l1.path = norm path := hpath
        have ha1 : l1.agent_id ≠ agent_id := hagents
        have hs := hsafe l1 (hmem l1 h1f) hp1 ha1
        exact ⟨hs.2, hs.1⟩
      · -- l1 is the new lock
        have hl1 := List.mem_singleton.mp h1n
        subst hl1
        have hp2 : l2.path = norm path := hpath.symm
        have ha2 : l2.agent_id ≠ agent_id := fun hc => hagents hc.symm
        have hs := hsafe l2 (hmem l2 h2f) hp2 ha2
        exact ⟨hs.1, hs.2⟩
      · -- both are the new lock: same owner, contradiction
        have hl1 := List.mem_singleton.mp h1n
        have hl2 := List.mem_singleton.mp h2n
        rw [hl1, hl2] at hagents
        exact absurd rfl hagents

theorem lockAcquireBatchGo_preserves (norm : String → String) (now : Nat)
    (agent_id : String) (lock_type : LockType) (files : List String)
    (st : List FileLock) (h : LockInvariant st) :
    LockInvariant (lockAcquireBatchGo norm now agent_id lock_type files st).2 := by
  induction files generalizing st with
  | nil => simpa [lockAcquireBatchGo] using h
  | cons p ps ih =>
      simp only [lockAcquireBatchGo]
      by_cases hok : (lockAcquire norm now p agent_id lock_type st).1 = true
      · simpa [hok] using ih _ (lockAcquire_preserves norm now p agent_id lock_type st h)
      · simp only [hok, if_false]
        exact lockInvariant_filter _
          (lockAcquire_preserves norm now p agent_id lock_type st h)

theorem lockAcquireBatch_preserves (norm : String → String) (now : Nat)
    (files : List String) (agent_id : String) (lock_type : LockType)
    (st : List FileLock) (h : LockInvariant st) :
    LockInvariant (lockAcquireBatch norm now files agent_id lock_type st).2 := by
  simp only [lockAcquireBatch]
  split
  · exact lockInvariant_filter _ h
  · exact lockAcquireBatchGo_preserves norm now agent_id lock_type files _
      (lockInvariant_filter _ h)

theorem lockStep_preserves (norm : String → String) (st : List FileLock)
    (op : LockOp) (h : LockInvariant st) :
    LockInvariant (lockStep norm st op) := by
  cases op with
  | acquire now path agent_id lock_type =>
      exact lockAcquire_preserves norm now path agent_id lock_type st h
  | acquireBatch now files agent_id lock_type =>
      exact lockAcquireBatch_preserves norm now files agent_id lock_type st h
  | release path agent_id => exact lockInvariant_filter _ h
  | releaseAgent agent_id => exact lockInvariant_filter _ h

/-- Claim C2: every lock-table state reachable by any sequence of `acquire`,
`acquire_batch`, `release` and `release_agent` operations satisfies the
multi-reader/single-writer invariant: on any canonicalized path, two locks
held by distinct agents are never write locks — no two distinct-agent write
locks, no distinct-agent read/write pair, while any number of read locks may
coexist. -/
theorem lock_table_invariant (norm : String → String) (ops : List LockOp) :
    LockInvariant (runLockOps norm ops) := by
  suffices h : ∀ st, LockInvariant st →
      LockInvariant (ops.foldl (lockStep norm) st) by
    exact h [] (by intro l1 h1; simp at h1)
  induction ops with
  | nil => intro st h; simpa using h
  | cons op ops ih =>
      intro st h
      exact ih _ (lockStep_preserves norm st op h)

/-- After validation passes, `recordOutcome` returns the Beta-posterior score
and upserts the corresponding entry (for some updated counts and means). -/
theorem recordOutcome_ok (now : ℚ) (agent task : String) (success : Bool)
    (quality duration : ℚ) (st : List TrustEntry)
    (hq0 : 0 ≤ quality) (hq1 : quality ≤ 1) (hd : 0 ≤ duration) :
    ∃ (s f : Nat) (aq ad : ℚ),
      recordOutcome now agent task success quality duration st =
        .ok (((s : ℚ) + 1) / (((s : ℚ) + 1) + ((f : ℚ) + 1)),
          trustUpsert
            { agent_id := agent, task_type := task, success_count := s,
              failure_count := f, avg_quality := aq, avg_duration := ad,
              trust_score := ((s : ℚ) + 1) / (((s : ℚ) + 1) + ((f : ℚ) + 1)),
              last_updated := now } st) := by
  cases hfind : findTrustEntry agent task st with
  | some e =>
      refine ⟨(if success then e.success_count + 1 else e.success_count),
        (if success then e.failure_count else e.failure_count + 1),
        (e.avg_quality * ((e.success_count : ℚ) + (e.failure_count : ℚ)) + quality) /
          (((e.success_count : ℚ) + (e.failure_count : ℚ)) + 1),
        (e.avg_duration * ((e.success_count : ℚ) + (e.failure_count : ℚ)) + duration) /
          (((e.success_count : ℚ) + (e.failure_count : ℚ)) + 1), ?_⟩
      simp only [recordOutcome, hfind]
      rw [if_neg (not_not_intro ⟨hq0, hq1⟩), if_neg (not_lt.mpr hd)]
  | none =>
      refine ⟨(if success then 1 else 0 : Nat), (if success then 0 else 1 : Nat),
        quality, duration, ?_⟩
      simp only [recordOutcome, hfind]
      rw [if_neg (not_not_intro ⟨hq0, hq1⟩), if_neg (not_lt.mpr hd)]

/-- Claim C3: for valid inputs (`quality ∈ [0,1]`, `duration ≥ 0`),
`record_outcome` succeeds, the stored entry satisfies
`trust_score = (success_count + 1) / (success_count + failure_count + 2)`,
and a `get_trust_score` for the same key with less than 7 days elapsed
returns exactly the just-written score. -/
theorem trust_record_then_get (st : List TrustEntry) (agent task : String)
    (success : Bool) (quality duration now now2 : ℚ)
    (hq0 : 0 ≤ quality) (hq1 : quality ≤ 1) (hd : 0 ≤ duration)
    (h7 : now2 - now < 7 * 86400) :
    ∃ ts st',
      recordOutcome now agent task success quality duration st =
        .ok (ts, st') ∧
      (∃ e, findTrustEntry agent task st' = some e ∧
        e.trust_score = ((e.success_count : ℚ) + 1) /
          ((e.success_count : ℚ) + (e.failure_count : ℚ) + 2) ∧
        e.last_updated = now ∧ ts = e.trust_score) ∧
      getTrustScore now2 agent task st' = ts := by
  obtain ⟨s, f, aq, ad, heq⟩ :=
    recordOutcome_ok now agent task success quality duration st hq0 hq1 hd
  have hup := findTrustEntry_upsert
    { agent_id := agent, task_type := task, success_count := s,
      failure_count := f, avg_quality := aq, avg_duration := ad,
      trust_score := ((s : ℚ) + 1) / (((s : ℚ) + 1) + ((f : ℚ) + 1)),
      last_updated := now } st
  refine ⟨_, _, heq,
    ⟨{ agent_id := agent, task_type := task, success_count := s,
       failure_count := f, avg_quality := aq, avg_duration := ad,
       trust_score := ((s : ℚ) + 1) / (((s : ℚ) + 1) + ((f : ℚ) + 1)),
       last_updated := now }, hup, ?_, rfl, rfl⟩, ?_⟩
  · show ((s : ℚ) + 1) / (((s : ℚ) + 1) + ((f : ℚ) + 1)) =
      ((s : ℚ) + 1) / ((s : ℚ) + (f : ℚ) + 2)
    have hden : ((s : ℚ) + 1) + ((f : ℚ) + 1) = (s : ℚ) + (f : ℚ) + 2 := by ring
    rw [hden]
  · have hdays : ¬ (DECAY_DAYS ≤ (now2 - now) / (24 * 3600)) := by
      rw [not_le, DECAY_DAYS]
      rw [div_lt_iff₀ (by norm_num : (0 : ℚ) < 24 * 3600)]
      linarith
    have hup2 : findTrustEntry agent task
        (trustUpsert
          { agent_id := agent, task_type := task, success_count := s,
            failure_count := f, avg_quality := aq, avg_duration := ad,
            trust_score := ((s : ℚ) + 1) / (((s : ℚ) + 1) + ((f : ℚ) + 1)),
            last_updated := now } st) =
        some
          { agent_id := agent, task_type := task, success_count := s,
            failure_count := f, avg_quality := aq, avg_duration := ad,
            trust_score := ((s : ℚ) + 1) / (((s : ℚ) + 1) + ((f : ℚ) + 1)),
            last_updated := now } := hup
    simp only [getTrustScore, hup2]
    rw [if_neg hdays]

/-- Witness for claim C3: a fresh ledger, one successful outcome of quality
0.9 and duration 1 recorded at time 0, read back at time 0. -/
theorem trust_record_then_get_witness :
    ∃ ts st',
      recordOutcome 0 "agent-a" "coding" true (9/10) 1 [] = .ok (ts, st') ∧
      (∃ e, findTrustEntry "agent-a" "coding" st' = some e ∧
        e.trust_score = ((e.success_count : ℚ) + 1) /
          ((e.success_count : ℚ) + (e.failure_count : ℚ) + 2) ∧
        e.last_updated = 0 ∧ ts = e.trust_score) ∧
      getTrustScore 0 "agent-a" "coding" st' = ts :=
  trust_record_then_get [] "agent-a" "coding" true (9/10) 1 0 0
    (by norm_num) (by norm_num) (by norm_num) (by norm_num)

/-- `_analyze_dependencies` only ever clears `parallel_safe` flags, so any
per-element property preserved by that update survives a pass step. -/
theorem onePassGo_elementwise (P : SubTask → Prop)
    (hP : ∀ st, P st → P { st with parallel_safe := false }) :
    ∀ (k i : Nat) (tasks : List SubTask) (changed : Bool),
      (∀ st ∈ tasks, P st) →
      ∀ st ∈ (onePassGo k i tasks changed).1, P st := by
  intro k
  induction k with
  | zero =>
      intro i tasks changed h st hst
      simp only [onePassGo] at hst
      exact h st hst
  | succ k ih =>
      intro i tasks changed h st hst
      rw [onePassGo] at hst
      cases hi : tasks[i]? with
      | none =>
          simp only [hi] at hst
          exact h st hst
      | some st0 =>
          have hst0 : st0 ∈ tasks := List.getElem?_mem hi
          simp only [hi] at hst
          split at hst
          · refine ih _ _ _ ?_ st hst
            intro st' hset
            rcases List.mem_or_eq_of_mem_set hset with hmem | heq
            · exact h st' hmem
            · exact heq ▸ hP st0 (h st0 hst0)
          · exact ih _ _ _ h st hst

theorem analyzeLoop_elementwise (P : SubTask → Prop)
    (hP : ∀ st, P st → P { st with parallel_safe := false }) :
    ∀ (fuel : Nat) (tasks : List SubTask),
      (∀ st ∈ tasks, P st) → ∀ st ∈ analyzeLoop fuel tasks, P st := by
  intro fuel
  induction fuel with
  | zero =>
      intro tasks h st hst
      simp only [analyzeLoop] at hst
      exact h st hst
  | succ fuel ih =>
      intro tasks h st hst
      rw [analyzeLoop] at hst
      by_cases hchanged : (onePassGo tasks.length 0 tasks false).2 = true
      · rw [if_pos hchanged] at hst
        exact ih _ (onePassGo_elementwise P hP _ _ _ _ h) st hst
      · rw [if_neg hchanged] at hst
        exact onePassGo_elementwise P hP _ _ _ _ h st hst

theorem analyzeDependencies_elementwise (P : SubTask → Prop)
    (hP : ∀ st, P st → P { st with parallel_safe := false })
    (tasks : List SubTask) (h : ∀ st ∈ tasks, P st) :
    ∀ st ∈ analyzeDependencies tasks, P st :=
  analyzeLoop_elementwise P hP _ tasks h

/-- Every subtask produced by the recursive decomposition either is a forced
leaf, was kept with an adequate (or absent) profile — so any property
holding in those three cases holds of all outputs. -/
theorem recursiveDecompose_all (llm : Option LlmFn) (gen : Nat → String)
    (P : SubTask → Prop)
    (hForced : ∀ ctr task profile parent depth,
      P (forcedLeaf gen ctr task profile parent depth))
    (hKeep : ∀ st p, st.profile = some p →
      ¬ p.verifiability < MIN_VERIFIABILITY → P st)
    (hNone : ∀ st, st.profile = none → P st) :
    ∀ (k depth : Nat), MAX_DEPTH - depth ≤ k →
      (∀ (task : String) (profile : TaskProfile) (parent : Option String)
        (ctr : Nat),
        ∀ st ∈ (recursiveDecompose llm gen task profile parent depth ctr).1,
          P st) ∧
      (∀ (h : depth < MAX_DEPTH) (sts : List SubTask) (ctr : Nat),
        ∀ st ∈ (verifyChildren llm gen depth h sts ctr).1, P st) := by
  intro k
  induction k with
  | zero =>
      intro depth hk
      have hd : MAX_DEPTH ≤ depth := by omega
      constructor
      · intro task profile parent ctr st hst
        rw [recursiveDecompose.eq_def] at hst
        rw [dif_pos hd] at hst
        rcases List.mem_singleton.mp hst with rfl
        exact hForced ctr task profile parent depth
      · intro h
        exact absurd h (not_lt.mpr hd)
  | succ k ih =>
      intro depth hk
      have hverify : ∀ (h : depth < MAX_DEPTH) (sts : List SubTask)
          (ctr : Nat),
          ∀ st ∈ (verifyChildren llm gen depth h sts ctr).1, P st := by
        intro h sts
        induction sts with
        | nil =>
            intro ctr st hst
            simp only [verifyChildren] at hst
            exact absurd hst (List.not_mem_nil st)
        | cons x rest ihs =>
            intro ctr st hst
            rw [verifyChildren] at hst
            cases hxp : x.profile with
            | some p =>
                simp only [hxp] at hst
                by_cases hvlt : p.verifiability < MIN_VERIFIABILITY
                · rw [if_pos hvlt] at hst
                  rcases List.mem_append.mp hst with hn | ht
                  · exact (ih (depth + 1) (by omega)).1
                      x.description p (some x.id) ctr st hn
                  · exact ihs _ st ht
                · rw [if_neg hvlt] at hst
                  rcases List.mem_cons.mp hst with rfl | ht
                  · exact hKeep st p hxp hvlt
                  · exact ihs _ st ht
            | none =>
                simp only [hxp] at hst
                rcases List.mem_cons.mp hst with rfl | ht
                · exact hNone st hxp
                · exact ihs _ st ht
      refine ⟨?_, hverify⟩
      intro task profile parent ctr st hst
      rw [recursiveDecompose.eq_def] at hst
      by_cases hd : MAX_DEPTH ≤ depth
      · rw [dif_pos hd] at hst
        rcases List.mem_singleton.mp hst with rfl
        exact hForced ctr task profile parent depth
      · rw [dif_neg hd] at hst
        exact hverify (Nat.lt_of_not_le hd) _ _ st hst

/-- Claim C4: for every task, profile and optional decomposer callable,
every SubTask returned by `decompose_task` that carries a profile has
`verifiability ≥ 0.3`; and at the recursion depth bound (depth ≥ 4) a single
forced-verifiable SubTask is emitted whose profile verifiability is exactly
0.3, whose verification method is human review, and whose metadata carries
`forced_verifiable = true`. -/
theorem decompose_task_verifiability (gen : Nat → String) (llm : Option LlmFn)
    (task : String) (profile : TaskProfile) :
    (∀ st ∈ decomposeTask gen task profile llm,
      ∀ p, st.profile = some p → MIN_VERIFIABILITY ≤ p.verifiability) ∧
    (∀ (task2 : String) (profile2 : TaskProfile) (parent : Option String)
      (depth ctr : Nat), MAX_DEPTH ≤ depth →
      ∃ st, recursiveDecompose llm gen task2 profile2 parent depth ctr =
          ([st], ctr + 1) ∧
        st.profile = some { profile2 with verifiability := MIN_VERIFIABILITY } ∧
        (∃ p, st.profile = some p ∧ p.verifiability = MIN_VERIFIABILITY) ∧
        st.verification_method = .human_review ∧
        ("forced_verifiable", MetaVal.bool true) ∈ st.metadata) := by
  constructor
  · have hrec := (recursiveDecompose_all llm gen
      (fun st => ∀ p, st.profile = some p →
        MIN_VERIFIABILITY ≤ p.verifiability)
      (fun ctr task profile parent depth => by
        intro p hp
        simp only [forcedLeaf, Option.some.injEq] at hp
        rw [← hp])
      (fun st p hp hge => by
        intro q hq
        rw [hp] at hq
        cases hq
        exact le_of_not_lt hge)
      (fun st hnone => by
        intro p hp
        rw [hnone] at hp
        exact absurd hp (by simp))
      MAX_DEPTH 0 (by omega)).1
    intro st hst
    refine analyzeDependencies_elementwise
      (fun st => ∀ p, st.profile = some p →
        MIN_VERIFIABILITY ≤ p.verifiability) ?_ _ ?_ st hst
    · intro st' hst' p hp
      exact hst' p hp
    · intro st' hst'
      exact hrec task profile none 0 st' hst'
  · intro task2 profile2 parent depth ctr hd
    refine ⟨forcedLeaf gen ctr task2 profile2 parent depth, ?_, rfl,
      ⟨_, rfl, rfl⟩, rfl, by simp [forcedLeaf]⟩
    rw [recursiveDecompose.eq_def]
    rw [dif_pos hd]

/-- Witness for claim C4: heuristic decomposition (no callable) of a build
task, and the forced leaf at depth 4. -/
theorem decompose_task_verifiability_witness :
    (∀ st ∈ decomposeTask (fun _ => "abcdefgh") "build an api server"
        { complexity := 7/10, verifiability := 6/10 } none,
      ∀ p, st.profile = some p → MIN_VERIFIABILITY ≤ p.verifiability) ∧
    (∃ st, recursiveDecompose none (fun _ => "abcdefgh") "deep task"
        { } none 4 0 = ([st], 1) ∧
      st.profile = some { TaskProfile.mk (1/2) (1/2) (1/2) (1/2) (1/2) (1/2)
        (1/2) MIN_VERIFIABILITY (1/2) (1/2) (1/2) with } ∧
      (∃ p, st.profile = some p ∧ p.verifiability = MIN_VERIFIABILITY) ∧
      st.verification_method = .human_review ∧
      ("forced_verifiable", MetaVal.bool true) ∈ st.metadata) := by
  have h := decompose_task_verifiability (fun _ => "abcdefgh") none
    "build an api server" { complexity := 7/10, verifiability := 6/10 }
  exact ⟨h.1, h.2 "deep task" { } none 4 0 (by decide)⟩

/-- In every template family, dependencies only reference the fixed ids
`subtask-0/1/2`, and the only parallel-safe row has no dependencies. -/
theorem heuristicTemplates_deps (task : String) :
    ∀ t ∈ heuristicTemplates task,
      (∀ d ∈ t.2.2.2.2.2, d ∈ ["subtask-0", "subtask-1", "subtask-2"]) ∧
      (t.2.2.2.2.1 = true → t.2.2.2.2.2 = ([] : List String)) := by
  intro t ht
  simp only [heuristicTemplates] at ht
  split_ifs at ht <;> revert ht <;> revert t <;> decide

/-- Every subtask built from the templates carries a generated id and its
row's dependencies and parallel flag. -/
theorem buildSubtasks_shape (gen : Nat → String) (task : String)
    (profile : TaskProfile) (parent : Option String) (depth : Nat) :
    ∀ (rows : List TemplateRow) (ctr : Nat),
      ∀ st ∈ (buildSubtasks gen task profile parent depth ctr rows).1,
        ∃ row ∈ rows, ∃ k,
          st.id = "subtask-" ++ gen k ∧
          st.dependencies = row.2.2.2.2.2 ∧
          st.parallel_safe = row.2.2.2.2.1 := by
  intro rows
  induction rows with
  | nil =>
      intro ctr st hst
      simp [buildSubtasks] at hst
  | cons row rest ih =>
      intro ctr st hst
      obtain ⟨desc, method, cost, duration, parallel, deps⟩ := row
      rw [buildSubtasks] at hst
      rcases List.mem_cons.mp hst with rfl | ht
      · exact ⟨(desc, method, cost, duration, parallel, deps),
          List.mem_cons_self _ _, ctr, rfl, rfl, rfl⟩
      · obtain ⟨row', hrow', k, h1, h2, h3⟩ := ih (ctr + 1) st ht
        exact ⟨row', List.mem_cons_of_mem _ hrow', k, h1, h2, h3⟩

/-- Claim C10: after heuristic decomposition and dependency analysis,
dependencies only hold the fixed template ids `subtask-0/1/2` while actual
ids are `subtask-` plus eight generated hex characters (16 characters
total), so no dependency resolves to any produced SubTask; and every
produced SubTask with a non-empty dependency list has
`parallel_safe = false`. -/
theorem heuristic_dependencies_unresolvable (gen : Nat → String)
    (hgen : ∀ n, (gen n).length = 8)
    (task : String) (profile : TaskProfile) (parent : Option String)
    (depth ctr : Nat) :
    (∀ st ∈ analyzeDependencies
        (heuristicDecompose gen ctr task profile parent depth).1,
      ∀ d ∈ st.dependencies, d ∈ ["subtask-0", "subtask-1", "subtask-2"]) ∧
    (∀ st ∈ analyzeDependencies
        (heuristicDecompose gen ctr task profile parent depth).1,
      st.id.length = 16) ∧
    (∀ st ∈ analyzeDependencies
        (heuristicDecompose gen ctr task profile parent depth).1,
      ∀ d ∈ st.dependencies,
      ∀ st2 ∈ analyzeDependencies
        (heuristicDecompose gen ctr task profile parent depth).1,
        d ≠ st2.id) ∧
    (∀ st ∈ analyzeDependencies
        (heuristicDecompose gen ctr task profile parent depth).1,
      st.dependencies ≠ [] → st.parallel_safe = false) := by
  have hbase := buildSubtasks_shape gen task profile parent depth
    (heuristicTemplates task) ctr
  have h1 : ∀ st ∈ analyzeDependencies
      (heuristicDecompose gen ctr task profile parent depth).1,
      ∀ d ∈ st.dependencies, d ∈ ["subtask-0", "subtask-1", "subtask-2"] := by
    refine analyzeDependencies_elementwise
      (fun st => ∀ d ∈ st.dependencies,
        d ∈ ["subtask-0", "subtask-1", "subtask-2"]) (fun st h => h) _ ?_
    intro st hst
    obtain ⟨row, hrow, k, hid, hdeps, hps⟩ := hbase st hst
    rw [hdeps]
    exact (heuristicTemplates_deps task row hrow).1
  have h2 : ∀ st ∈ analyzeDependencies
      (heuristicDecompose gen ctr task profile parent depth).1,
      st.id.length = 16 := by
    refine analyzeDependencies_elementwise
      (fun st => st.id.length = 16) (fun st h => h) _ ?_
    intro st hst
    obtain ⟨row, hrow, k, hid, hdeps, hps⟩ := hbase st hst
    rw [hid, String.length_append, hgen k]
    decide
  have h4 : ∀ st ∈ analyzeDependencies
      (heuristicDecompose gen ctr task profile parent depth).1,
      st.dependencies ≠ [] → st.parallel_safe = false := by
    refine analyzeDependencies_elementwise
      (fun st => st.dependencies ≠ [] → st.parallel_safe = false)
      (fun st _ _ => rfl) _ ?_
    intro st hst hne
    obtain ⟨row, hrow, k, hid, hdeps, hps⟩ := hbase st hst
    cases hb : st.parallel_safe with
    | false => rfl
    | true =>
        exfalso
        apply hne
        rw [hdeps]
        exact (heuristicTemplates_deps task row hrow).2 (by rw [← hps, hb])
  refine ⟨h1, h2, ?_, h4⟩
  intro st hst d hd st2 hst2 heq
  have hd9 : d.length = 9 := by
    have := h1 st hst d hd
    simp only [List.mem_cons, List.not_mem_nil, or_false] at this
    rcases this with rfl | rfl | rfl <;> rfl
  have h16 := h2 st2 hst2
  rw [heq, h16] at hd9
  exact absurd hd9 (by decide)

/-- Witness for claim C10: a concrete generic-family decomposition with a
fixed 8-character generator. -/
theorem heuristic_dependencies_unresolvable_witness :
    (∀ st ∈ analyzeDependencies
        (heuristicDecompose (fun _ => "00000000") 0 "organize the shelf"
          { } none 0).1,
      ∀ d ∈ st.dependencies,
      ∀ st2 ∈ analyzeDependencies
        (heuristicDecompose (fun _ => "00000000") 0 "organize the shelf"
          { } none 0).1,
        d ≠ st2.id) ∧
    (∀ st ∈ analyzeDependencies
        (heuristicDecompose (fun _ => "00000000") 0 "organize the shelf"
          { } none 0).1,
      st.dependencies ≠ [] → st.parallel_safe = false) := by
  have h := heuristic_dependencies_unresolvable (fun _ => "00000000")
    (fun _ => rfl) "organize the shelf" { } none 0 0
  exact ⟨h.2.2.1, h.2.2.2⟩

theorem mem_dedupAcc : ∀ (l seen : List String) (a : String),
    a ∈ l → a ∉ seen → a ∈ dedupAcc seen l := by
  intro l
  induction l with
  | nil =>
      intro seen a h
      exact absurd h (List.not_mem_nil a)
  | cons x xs ih =>
      intro seen a h hseen
      rw [dedupAcc]
      by_cases hx : x ∈ seen
      · rw [if_pos hx]
        rcases List.mem_cons.mp h with rfl | hxs
        · exact absurd hx hseen
        · exact ih seen a hxs hseen
      · rw [if_neg hx]
        rcases List.mem_cons.mp h with rfl | hxs
        · exact List.mem_cons_self _ _
        · by_cases hax : a = x
          · rw [hax]
            exact List.mem_cons_self _ _
          · exact List.mem_cons_of_mem _ (ih (x :: seen) a hxs (by simp [hax, hseen]))

/-- Any two distinct-index usages of one path, one of them a write, yield
their `(min, max)` pair among the path's conflict pairs. -/
theorem usagePairs_mem : ∀ (us : List (Nat × LockType)) (i1 i2 : Nat)
    (l1 l2 : LockType), (i1, l1) ∈ us → (i2, l2) ∈ us → i1 ≠ i2 →
    (l1 = .write ∨ l2 = .write) →
    (min i1 i2, max i1 i2) ∈ usagePairs us := by
  intro us
  induction us with
  | nil =>
      intro i1 i2 l1 l2 h1
      exact absurd h1 (List.not_mem_nil _)
  | cons u rest ih =>
      intro i1 i2 l1 l2 h1 h2 hne hw
      obtain ⟨a, la⟩ := u
      rw [usagePairs]
      rcases List.mem_cons.mp h1 with heq1 | h1r
      · rcases List.mem_cons.mp h2 with heq2 | h2r
        · have e1 := congrArg Prod.fst heq1
          have e2 := congrArg Prod.fst heq2
          exact absurd (e1.trans e2.symm) hne
        · injection heq1 with e1 e2
          subst e1
          subst e2
          apply List.mem_append_left
          exact List.mem_filterMap.mpr ⟨(i2, l2), h2r, by rw [if_pos hw]⟩
      · rcases List.mem_cons.mp h2 with heq2 | h2r
        · injection heq2 with e1 e2
          subst e1
          subst e2
          apply List.mem_append_left
          refine List.mem_filterMap.mpr ⟨(i1, l1), h1r, ?_⟩
          rw [if_pos (Or.symm hw)]
          rw [min_comm, max_comm]
        · exact List.mem_append_right _ (ih i1 i2 l1 l2 h1r h2r hne hw)

/-- A file of the `i`-th planned subtask contributes `(i, lock)` to the
usage list of its normalized path. -/
theorem fileUsage_mem (norm : String → String)
    (subtasks : List PlannedSubtask) (i : Nat) (si : PlannedSubtask)
    (f : String) (p : String) (hi : subtasks[i]? = some si)
    (hf : f ∈ si.files) (hp : norm f = p) :
    (i, si.lock_type) ∈ fileUsage norm subtasks p := by
  unfold fileUsage
  refine List.mem_flatMap.mpr ⟨(i, si), ?_, ?_⟩
  · exact List.mk_mem_enum_iff_getElem?.mpr hi
  · exact List.mem_map.mpr ⟨f, List.mem_filter.mpr ⟨hf, by simp [hp]⟩, rfl⟩

/-- Two spec-conflicting subtasks land in the `conflicting_pairs` set. -/
theorem conflictSpec_mem_pairs (norm : String → String)
    (subtasks : List PlannedSubtask) (i j : Nat) (hne : i ≠ j)
    (hc : conflictSpec norm subtasks i j) :
    (min i j, max i j) ∈ conflictingPairs norm subtasks := by
  obtain ⟨si, sj, hi, hj, f, hf, g, hg, hnorm, hw⟩ := hc
  have hui : (i, si.lock_type) ∈ fileUsage norm subtasks (norm f) :=
    fileUsage_mem norm subtasks i si f (norm f) hi hf rfl
  have huj : (j, sj.lock_type) ∈ fileUsage norm subtasks (norm f) :=
    fileUsage_mem norm subtasks j sj g (norm f) hj hg hnorm.symm
  refine List.mem_flatMap.mpr ⟨norm f, ?_, ?_⟩
  · unfold uniqueNormPaths
    refine mem_dedupAcc _ [] _ ?_ (List.not_mem_nil _)
    exact List.mem_flatMap.mpr ⟨si, List.getElem?_mem hi,
      List.mem_map.mpr ⟨f, hf, rfl⟩⟩
  · exact usagePairs_mem _ i j si.lock_type sj.lock_type hui huj hne hw

/-- A group is pairwise free of recorded conflict pairs. -/
def PairwiseSafe (pairs : List (Nat × Nat)) (g : List Nat) : Prop :=
  ∀ i ∈ g, ∀ j ∈ g, i ≠ j → (min i j, max i j) ∉ pairs

theorem extendGroup_safe (pairs : List (Nat × Nat)) :
    ∀ (cands group assigned : List Nat), PairwiseSafe pairs group →
      PairwiseSafe pairs (extendGroup pairs cands group assigned).1 := by
  intro cands
  induction cands with
  | nil =>
      intro group assigned h
      simpa [extendGroup] using h
  | cons other rest ih =>
      intro group assigned h
      rw [extendGroup]
      by_cases hassigned : other ∈ assigned
      · rw [if_pos hassigned]
        exact ih _ _ h
      · rw [if_neg hassigned]
        by_cases hcan : groupCanAdd pairs group other = true
        · rw [if_pos hcan]
          refine ih _ _ ?_
          have hcan' : ∀ m ∈ group, (min m other, max m other) ∉ pairs := by
            intro m hm
            simpa using List.all_eq_true.mp hcan m hm
          intro i hi j hj hne
          rcases List.mem_append.mp hi with hig | hio <;>
            rcases List.mem_append.mp hj with hjg | hjo
          · exact h i hig j hjg hne
          · rw [List.mem_singleton.mp hjo]
            exact hcan' i hig
          · rw [List.mem_singleton.mp hio, min_comm, max_comm]
            exact hcan' j hjg
          · rw [List.mem_singleton.mp hio, List.mem_singleton.mp hjo] at hne
            exact absurd rfl hne
        · rw [if_neg hcan]
          exact ih _ _ h

theorem buildGroupsGo_safe (pairs : List (Nat × Nat)) :
    ∀ (idxs assigned : List Nat),
      ∀ g ∈ buildGroupsGo pairs idxs assigned, PairwiseSafe pairs g := by
  intro idxs
  induction idxs with
  | nil =>
      intro assigned g hg
      simp [buildGroupsGo] at hg
  | cons idx rest ih =>
      intro assigned g hg
      rw [buildGroupsGo] at hg
      by_cases hassigned : idx ∈ assigned
      · rw [if_pos hassigned] at hg
        exact ih _ g hg
      · rw [if_neg hassigned] at hg
        rcases List.mem_cons.mp hg with rfl | hgrest
        · refine extendGroup_safe pairs rest [idx] (idx :: assigned) ?_
          intro i hi j hj hne
          rw [List.mem_singleton.mp hi, List.mem_singleton.mp hj] at hne
          exact absurd rfl hne
        · exact ih _ g hgrest

/-- Claim C8: in the report of `detect_potential_conflicts`, no two distinct
members of the same parallel group conflict (sharing a normalized path with
at least one write lock), and `can_parallelize = true` exactly when some
returned group has at least two members. -/
theorem detect_potential_conflicts_spec (norm : String → String)
    (subtasks : List PlannedSubtask) :
    (∀ g ∈ (detectPotentialConflicts norm subtasks).parallel_groups,
      ∀ i ∈ g, ∀ j ∈ g, i ≠ j → ¬ conflictSpec norm subtasks i j) ∧
    ((detectPotentialConflicts norm subtasks).can_parallelize = true ↔
      ∃ g ∈ (detectPotentialConflicts norm subtasks).parallel_groups,
        2 ≤ g.length) := by
  constructor
  · intro g hg i hi j hj hne hc
    have hmem := conflictSpec_mem_pairs norm subtasks i j hne hc
    exact buildGroupsGo_safe (conflictingPairs norm subtasks)
      (List.range subtasks.length) [] g hg i hi j hj hne hmem
  · simp only [detectPotentialConflicts, Bool.and_eq_true, List.any_eq_true,
      decide_eq_true_eq, gt_iff_lt]
    constructor
    · rintro ⟨-, g, hg, hlen⟩
      exact ⟨g, hg, hlen⟩
    · rintro ⟨g, hg, hlen⟩
      refine ⟨List.length_pos.mpr ?_, g, hg, by omega⟩
      intro hnil
      rw [hnil] at hg
      exact List.not_mem_nil g hg

/-- Witness for claim C8: two readers and a writer on one file — the greedy
groups keep the two readers together and `can_parallelize` is true, and the
first two subtasks indeed do not conflict. -/
theorem detect_potential_conflicts_spec_witness :
    ¬ conflictSpec (fun s => s)
      [{ files := ["f"], lock_type := .read },
       { files := ["f"], lock_type := .read },
       { files := ["f"], lock_type := .write }] 0 1 ∧
    (detectPotentialConflicts (fun s => s)
      [{ files := ["f"], lock_type := .read },
       { files := ["f"], lock_type := .read },
       { files := ["f"], lock_type := .write }]).can_parallelize = true := by
  have h := detect_potential_conflicts_spec (fun s => s)
    [{ files := ["f"], lock_type := .read },
     { files := ["f"], lock_type := .read },
     { files := ["f"], lock_type := .write }]
  constructor
  · exact h.1 [0, 1] (by decide) 0 (by decide) 1 (by decide) (by decide)
  · exact h.2.mpr ⟨[0, 1], by decide, by decide⟩

/-- Claim C5, counterexample: a subtask whose profile complexity is exactly
0.2 is NOT bypassed — with an agent available, `route_subtask` scores and
selects that agent rather than returning `DIRECT_EXECUTION`, and no
`delegation_bypassed` metadata is set (the code's threshold is strictly
less-than). -/
theorem route_subtask_complexity_boundary :
    (routeSubtask 0
      { id := "st-1", description := "compute checksum",
        verification_method := .automated_test, estimated_cost := 1/2,
        estimated_duration := 1/2, parallel_safe := true,
        profile := some { complexity := 1/5 } }
      [{ agent_id := "agent-x", name := "X", description := "checksums",
         keywords := ["checksum"] }] []).agent_id = "agent-x" ∧
    ∀ v, ("delegation_bypassed", v) ∉
      (routeSubtask 0
        { id := "st-1", description := "compute checksum",
          verification_method := .automated_test, estimated_cost := 1/2,
          estimated_duration := 1/2, parallel_safe := true,
          profile := some { complexity := 1/5 } }
        [{ agent_id := "agent-x", name := "X", description := "checksums",
           keywords := ["checksum"] }] []).metadata := by
  constructor
  · simp only [routeSubtask]
    rw [if_neg (by norm_num [MIN_COMPLEXITY_FOR_DELEGATION])]
    simp only [routeSubtask.routeScored, List.map_cons, List.map_nil,
      sortByLt, insertByLt]
  · intro v
    simp only [routeSubtask]
    rw [if_neg (by norm_num [MIN_COMPLEXITY_FOR_DELEGATION])]
    simp only [routeSubtask.routeScored, List.map_cons, List.map_nil,
      sortByLt, insertByLt]
    intro hv
    simp only [List.mem_cons, List.not_mem_nil, or_false,
      Prod.mk.injEq] at hv
    rcases hv with ⟨h, _⟩ | ⟨h, _⟩ | ⟨h, _⟩ | ⟨h, _⟩ | ⟨h, _⟩ <;> simp at h

/-- Claim C5 (amended): delegation is bypassed exactly when the subtask has a
profile with complexity strictly below 0.2; at complexity 0.2 (and above, or
with no profile) no bypass marker is produced and routing proceeds to agent
scoring (or the distinct no-agents fallback). -/
theorem route_subtask_bypass_strictly_below (now : ℚ) (subtask : SubTask)
    (agents : List AgentCapability) (trust : List (String × ℚ)) :
    (∀ p, subtask.profile = some p →
      p.complexity < MIN_COMPLEXITY_FOR_DELEGATION →
      routeSubtask now subtask agents trust =
        { subtask_id := subtask.id, agent_id := "DIRECT_EXECUTION",
          trust_score := 1, capability_match := 1, timestamp := now,
          metadata := [("delegation_bypassed", .bool true)] }) ∧
    ((∀ p, subtask.profile = some p →
        ¬ p.complexity < MIN_COMPLEXITY_FOR_DELEGATION) →
      ∀ v, ("delegation_bypassed", v) ∉
        (routeSubtask now subtask agents trust).metadata) := by
  constructor
  · intro p hp hlt
    simp only [routeSubtask, hp]
    rw [if_pos hlt]
  · intro hge v
    have hscored : ∀ v, ("delegation_bypassed", v) ∉
        (routeSubtask.routeScored now subtask agents trust).metadata := by
      intro v
      simp only [routeSubtask.routeScored]
      split
      · simp
      · simp
    cases hprof : subtask.profile with
    | none =>
        simp only [routeSubtask, hprof]
        exact hscored v
    | some p =>
        simp only [routeSubtask, hprof]
        rw [if_neg (hge p hprof)]
        exact hscored v

/-- Witness for the amended claim C5: complexity 0.1 is strictly below the
threshold and is bypassed to `DIRECT_EXECUTION`. -/
theorem route_subtask_bypass_strictly_below_witness :
    routeSubtask 0
      { id := "st-2", description := "trivial lookup",
        verification_method := .automated_test, estimated_cost := 1/2,
        estimated_duration := 1/2, parallel_safe := true,
        profile := some { complexity := 1/10 } }
      [] [] =
      { subtask_id := "st-2", agent_id := "DIRECT_EXECUTION",
        trust_score := 1, capability_match := 1, timestamp := 0,
        metadata := [("delegation_bypassed", .bool true)] } :=
  (route_subtask_bypass_strictly_below 0
    { id := "st-2", description := "trivial lookup",
      verification_method := .automated_test, estimated_cost := 1/2,
      estimated_duration := 1/2, parallel_safe := true,
      profile := some { complexity := 1/10 } } [] []).1
    { complexity := 1/10 } rfl (by norm_num [MIN_COMPLEXITY_FOR_DELEGATION])

/-- Claim C6, failing input: spawning an agent whose prompt is empty with a
file to lock raises the validation error before any subprocess is spawned,
but only after the agent has been registered and its lock acquired: the
resulting state still holds a write lock owned by the new agent and a
pending registry row, so the operation does mutate state, contradicting the
claim (the lock release lives in the `finally` of a `try` block that is
never entered). -/
theorem spawn_validation_error_leaks_state :
    (spawnPrefix (fun s => s) 0 "agent-1"
      { subtask := "sub", prompt := "", agent_type := "explore",
        files_to_lock := ["f.txt"], lock_type := .write } "task-1"
      { registry := [], locks := [] }).1 = .raised "Prompt cannot be empty" ∧
    (spawnPrefix (fun s => s) 0 "agent-1"
      { subtask := "sub", prompt := "", agent_type := "explore",
        files_to_lock := ["f.txt"], lock_type := .write } "task-1"
      { registry := [], locks := [] }).2.locks =
      [{ path := "f.txt", agent_id := "agent-1", lock_type := .write,
         acquired_at := 0 }] ∧
    registryState
      (spawnPrefix (fun s => s) 0 "agent-1"
        { subtask := "sub", prompt := "", agent_type := "explore",
          files_to_lock := ["f.txt"], lock_type := .write } "task-1"
        { registry := [], locks := [] }).2.registry "agent-1" =
      some .pending := by
  refine ⟨?_, ?_, ?_⟩ <;> decide

/-- Claim C7: synthesis status is `success` when all agents succeeded,
`partial` when some but not all succeeded, and `failed` when none succeeded
(and at least one agent ran, the all-succeeded case taking precedence on an
empty mapping); the combined output concatenates, in order, exactly the
successful agents' outputs under their headers, and the error list collects
exactly the truthy error strings. -/
theorem synthesize_results_spec (agent_results : List AgentResult) :
    ((∀ r ∈ agent_results, r.success = true) →
      (synthesizeResults agent_results).status = "success") ∧
    ((∃ r ∈ agent_results, r.success = true) →
      (∃ r ∈ agent_results, r.success = false) →
      (synthesizeResults agent_results).status = "partial") ∧
    ((∀ r ∈ agent_results, r.success = false) → agent_results ≠ [] →
      (synthesizeResults agent_results).status = "failed") ∧
    (synthesizeResults agent_results).combined_output =
      String.intercalate "\n\n"
        ((agent_results.filter (fun r => r.success)).map
          (fun r => "## Agent " ++ r.agent_id ++ "\n" ++ r.output)) ∧
    (synthesizeResults agent_results).errors =
      (agent_results.filter (fun r => optStrTruthy r.error)).filterMap
        (fun r => r.error) := by
  refine ⟨?_, ?_, ?_, rfl, rfl⟩
  · intro hall
    have hfilter : agent_results.filter (fun r => r.success) = agent_results :=
      List.filter_eq_self.mpr (fun r hr => by simp [hall r hr])
    simp [synthesizeResults, hfilter]
  · rintro ⟨rs, hrs, hrss⟩ ⟨rf, hrf, hrff⟩
    have hlt : (agent_results.filter (fun r => r.success)).length <
        agent_results.length := by
      refine List.length_filter_lt_length_iff_exists.mpr ?_
      exact ⟨rf, hrf, by simp [hrff]⟩
    have hpos : 0 < (agent_results.filter (fun r => r.success)).length := by
      have : rs ∈ agent_results.filter (fun r => r.success) :=
        List.mem_filter.mpr ⟨hrs, by simp [hrss]⟩
      exact List.length_pos.mpr (fun h => by simp [h] at this)
    simp only [synthesizeResults]
    rw [if_neg (Nat.ne_of_lt hlt), if_pos hpos]
  · intro hall hne
    have hfilter : agent_results.filter (fun r => r.success) = [] := by
      refine List.filter_eq_nil_iff.mpr (fun r hr => by simp [hall r hr])
    have hpos : 0 < agent_results.length := List.length_pos.mpr hne
    simp only [synthesizeResults, hfilter]
    rw [if_neg (by simpa using Nat.ne_of_lt hpos), if_neg (by simp)]

/-- Witness for claim C7 at a concrete two-agent mapping with one success and
one failure: status is `partial`. -/
theorem synthesize_results_spec_witness :
    (synthesizeResults
      [{ agent_id := "a1", success := true, output := "ok" },
       { agent_id := "a2", success := false, output := "",
         error := some "boom" }]).status = "partial" := by
  have h := synthesize_results_spec
    [{ agent_id := "a1", success := true, output := "ok" },
     { agent_id := "a2", success := false, output := "",
       error := some "boom" }]
  exact h.2.1
    ⟨{ agent_id := "a1", success := true, output := "ok", error := none },
      by simp, rfl⟩
    ⟨{ agent_id := "a2", success := false, output := "", error := some "boom" },
      by simp, rfl⟩

/-- The architecture query's complexity evaluates to exactly 0.85: 8
estimated tokens (+0.10) and three architecture signals — design,
distributed, system — capped contribution +0.75. -/
theorem architecture_query_complexity :
    estimateComplexityScore "Design a distributed caching system" = 17/20 := by
  have h1 : countSignals "Design a distributed caching system"
      codeKeywords = 0 := by decide
  have h2 : countSignals "Design a distributed caching system"
      architectureKeywords = 3 := by decide
  have h3 : countSignals "Design a distributed caching system"
      debugKeywords = 0 := by decide
  have h4 : countSignals "Design a distributed caching system"
      multiFileKeywords = 0 := by decide
  have h5 : countSignals "Design a distributed caching system"
      analysisKeywords = 0 := by decide
  have h6 : countSignals "Design a distributed caching system"
      creationKeywords = 0 := by decide
  have h7 : countSignals "Design a distributed caching system"
      simpleKeywords = 0 := by decide
  have hsig : signalScore "Design a distributed caching system" = 3/4 := by
    simp only [signalScore, signalCategories, List.map_cons, List.map_nil,
      h1, h2, h3, h4, h5, h6, h7, List.sum_cons, List.sum_nil]
    norm_num
  have hctx : requiresProjectContext "Design a distributed caching system" =
      false := by decide
  have hconv : isConversational "Design a distributed caching system" =
      false := by decide
  have htok : estimateTokens "Design a distributed caching system" = 8 := by
    decide
  have hband : tokenBandScore 8 = 1/10 := by
    rw [tokenBandScore, if_pos (by norm_num)]
  simp only [estimateComplexityScore, hctx, hconv, htok, hband, hsig,
    Bool.false_eq_true, if_false]
  have hsum : (1/10 : ℚ) + 3/4 = 17/20 := by norm_num
  rw [hsum, min_eq_right (by norm_num), max_eq_right (by norm_num), round3]
  rw [show (17/20 : ℚ) * 1000 = ((850 : ℤ) : ℚ) by norm_num, round_intCast]
  norm_num

/-- Claim C9: with default baselines,
`score("Design a distributed caching system")` selects model `opus`, with a
complexity score of at least 0.6, and a thinking effort among low, medium,
high and max (concretely: high). -/
theorem score_architecture_query :
    (scoreQuery "Design a distributed caching system").model = .opus ∧
    (6/10 : ℚ) ≤
      (scoreQuery "Design a distributed caching system").complexity ∧
    (scoreQuery "Design a distributed caching system").thinking_effort ∈
      [some "low", some "medium", some "high", some "max"] := by
  have hc := architecture_query_complexity
  have hideal : idealModel (17/20) = .opus := by
    rw [idealModel, if_neg (by norm_num), if_neg (by norm_num),
      if_neg (by norm_num), if_pos (by norm_num)]
  have hvh : assessValidity (17/20) .haiku = 0 := by
    simp only [assessValidity, maxComplexity]
    rw [if_neg (by norm_num)]
    rw [show (1 : ℚ) - (17/20 - 20/100) * 2 = -(3/10) by norm_num]
    exact max_eq_left (by norm_num)
  have hsh : assessSpecificity (17/20) .haiku = 1/5 := by
    simp only [assessSpecificity, hideal, modelIdx]
    rw [if_neg (by simp)]
    rw [show (((((2:Nat) : ℤ)) - (((0:Nat) : ℤ))).natAbs : ℚ) = 2 by norm_num]
    rw [show (1 : ℚ) - 2 * (4/10) = 1/5 by norm_num]
    exact max_eq_right (by norm_num)
  have hvs : assessValidity (17/20) .sonnet = 7/10 := by
    simp only [assessValidity, maxComplexity]
    rw [if_neg (by norm_num)]
    rw [show (1 : ℚ) - (17/20 - 70/100) * 2 = 7/10 by norm_num]
    exact max_eq_right (by norm_num)
  have hss : assessSpecificity (17/20) .sonnet = 3/5 := by
    simp only [assessSpecificity, hideal, modelIdx]
    rw [if_neg (by simp)]
    rw [show (((((2:Nat) : ℤ)) - (((1:Nat) : ℤ))).natAbs : ℚ) = 1 by norm_num]
    rw [show (1 : ℚ) - 1 * (4/10) = 3/5 by norm_num]
    exact max_eq_right (by norm_num)
  have hvo : assessValidity (17/20) .opus = 97/100 := by
    simp only [assessValidity, maxComplexity]
    rw [if_pos (by norm_num), if_neg (by norm_num), if_neg (by simp)]
    norm_num
  have hso : assessSpecificity (17/20) .opus = 1 := by
    simp only [assessSpecificity, hideal]
    simp
  have hdqh : (calculateDq (17/20) .haiku).score = 1/4 := by
    simp only [calculateDq, hvh, hsh]
    rw [show (0 : ℚ) * (35/100) + (1/5) * (25/100) + (1/2) * (40/100)
      = 1/4 by norm_num, round3]
    rw [show (1/4 : ℚ) * 1000 = ((250 : ℤ) : ℚ) by norm_num, round_intCast]
    norm_num
  have hdqs : (calculateDq (17/20) .sonnet).score = 119/200 := by
    simp only [calculateDq, hvs, hss]
    rw [show (7/10 : ℚ) * (35/100) + (3/5) * (25/100) + (1/2) * (40/100)
      = 119/200 by norm_num, round3]
    rw [show (119/200 : ℚ) * 1000 = ((595 : ℤ) : ℚ) by norm_num,
      round_intCast]
    norm_num
  have hdqo : (calculateDq (17/20) .opus).score = 79/100 := by
    simp only [calculateDq, hvo, hso]
    rw [show (97/100 : ℚ) * (35/100) + 1 * (25/100) + (1/2) * (40/100)
      = 1579/2000 by norm_num, round3]
    rw [show (1579/2000 : ℚ) * 1000 = 1579/2 by norm_num, round_eq]
    rw [show (1579/2 : ℚ) + 1/2 = ((790 : ℤ) : ℚ) by norm_num,
      Int.floor_intCast]
    norm_num
  have hOS : candLt (ModelName.opus, calculateDq (17/20) .opus)
      (ModelName.sonnet, calculateDq (17/20) .sonnet) = true := by
    simp only [candLt, hdqo, hdqs]
    rw [decide_eq_true_eq]
    left
    norm_num
  have hOH : candLt (ModelName.opus, calculateDq (17/20) .opus)
      (ModelName.haiku, calculateDq (17/20) .haiku) = true := by
    simp only [candLt, hdqo, hdqh]
    rw [decide_eq_true_eq]
    left
    norm_num
  have hSH : candLt (ModelName.sonnet, calculateDq (17/20) .sonnet)
      (ModelName.haiku, calculateDq (17/20) .haiku) = true := by
    simp only [candLt, hdqs, hdqh]
    rw [decide_eq_true_eq]
    left
    norm_num
  have hthink : getThinkingEffort (17/20) ModelName.opus = some "high" := by
    rw [getThinkingEffort]
    rw [if_neg (by simp), if_neg (by norm_num), if_neg (by norm_num),
      if_pos (by norm_num)]
  have hsorted : sortByLt candLt
      ([ModelName.haiku, .sonnet, .opus].map
        (fun m => (m, calculateDq (17/20) m))) =
      [(ModelName.opus, calculateDq (17/20) .opus),
       (ModelName.sonnet, calculateDq (17/20) .sonnet),
       (ModelName.haiku, calculateDq (17/20) .haiku)] := by
    simp only [List.map_cons, List.map_nil, sortByLt, insertByLt,
      hOS, hOH, hSH, if_true]
  refine ⟨?_, ?_, ?_⟩
  · simp only [scoreQuery, hc, hsorted, List.headD]
  · simp only [scoreQuery, hc]
    norm_num
  · simp only [scoreQuery, hc, hsorted, List.headD, hthink]
    simp

end Coordinator
